import Mathlib

set_option maxHeartbeats 1000000

/-
Shallow embedding of the connectsite signaling core.

The server (src/server/src/signaling.ts) keeps two module-level maps:
`rooms : Map<roomId, Map<socketId, Participant>>` and
`sessions : Map<socketId, SessionData>`, and registers socket.io handlers
for join-room, leave-room, set-muted, offer, answer, ice-candidate and
disconnect.  We model JavaScript Maps as insertion-ordered association
lists (SMap), the socket.io room/channel layer as a list of
(channelName, socketId) pairs, and each handler as a pure function from
server state to (server state, list of emissions).  An emission records
the recipient connection ids together with the message.

socket.io specifics reflected in the model:
  - every connected socket is a member of the channel named by its own id
    (so `io.to(socketId)` addresses that one socket);
  - `socket.to(ch)` addresses the channel's members except the sender;
  - on an abrupt disconnect the socket has already been removed from all
    channels by the time the "disconnect" handler runs.

The client-side room normalizer toRoomHostId comes from
src/unnamed/part_000 (a per-room build of the peer client).
-/

namespace ConnectSite

/-- Participant record from src/server/src/types.ts.  The optional
extension fields (robloxUserId, inGame, position) are never read or
written by the signaling core and are omitted from the embedding. -/
structure Participant where
  socketId : String
  userId : String
  muted : Bool
deriving DecidableEq, Repr

/-- SessionData record from src/server/src/types.ts. -/
structure SessionData where
  roomId : String
  userId : String
  muted : Bool
deriving DecidableEq, Repr

/-- Insertion-ordered string-keyed map, mirroring a JavaScript Map:
`set` updates the first matching entry in place or appends a fresh one,
`del` removes the key, `values` lists values in insertion order. -/
abbrev SMap (α : Type) : Type := List (String × α)

namespace SMap

def get? {α : Type} : SMap α → String → Option α
  | [], _ => none
  | (k1, v1) :: rest, k => if k1 = k then some v1 else get? rest k

def set {α : Type} : SMap α → String → α → SMap α
  | [], k, v => [(k, v)]
  | (k1, v1) :: rest, k, v =>
      if k1 = k then (k, v) :: rest else (k1, v1) :: set rest k v

def del {α : Type} : SMap α → String → SMap α
  | [], _ => []
  | (k1, v1) :: rest, k =>
      if k1 = k then del rest k else (k1, v1) :: del rest k

def values {α : Type} (m : SMap α) : List α := m.map (fun e => e.2)

def keys {α : Type} (m : SMap α) : List String := m.map (fun e => e.1)

end SMap

/-- Messages emitted by the server handlers (outbound event name plus
payload fields).  `P` is the opaque type of relayed sdp / candidate
payloads; the server never inspects them. -/
inductive Msg (P : Type) where
  | voiceError (code message : String)
  | joinedRoom (roomId selfSocketId : String) (participants : List Participant)
  | participantJoined (socketId userId : String)
  | participantUpdate (roomId : String) (participants : List Participant)
  | peerLeft (socketId : String)
  | offer (fromId userId : String) (sdp : P)
  | answer (fromId userId : String) (sdp : P)
  | iceCandidate (fromId userId : String) (candidate : P)
deriving DecidableEq, Repr

/-- One emission: the list of recipient socket ids (computed from the
channel layer at emit time) and the message. -/
abbrev Emit (P : Type) : Type := List String × Msg P

/-- Server state: the two module-level maps of signaling.ts plus the
socket.io transport layer (channel membership pairs and the set of
currently connected sockets). -/
structure ServerState where
  rooms : SMap (SMap Participant)
  sessions : SMap SessionData
  channels : List (String × String)
  connected : List String
deriving DecidableEq, Repr

def GLOBAL_ROOM_ID : String := "global-room"

/-- Members of a socket.io channel, in subscription order. -/
def chanMembers (cs : List (String × String)) (ch : String) : List String :=
  (cs.filter (fun e => decide (e.1 = ch))).map (fun e => e.2)

/-- socket.join: a no-op when the socket is already in the channel. -/
def chanJoin (cs : List (String × String)) (ch s : String) : List (String × String) :=
  if (ch, s) ∈ cs then cs else cs ++ [(ch, s)]

/-- socket.leave. -/
def chanLeave (cs : List (String × String)) (ch s : String) : List (String × String) :=
  cs.filter (fun e => decide (e ≠ (ch, s)))

/-- Removal of a socket from every channel (performed by socket.io itself
just before the "disconnect" handler runs). -/
def chanLeaveAll (cs : List (String × String)) (s : String) : List (String × String) :=
  cs.filter (fun e => decide (e.2 ≠ s))

/-- getRoomParticipants from signaling.ts: Array.from(room.values()),
or [] when the room is absent. -/
def getRoomParticipants (st : ServerState) (roomId : String) : List Participant :=
  match st.rooms.get? roomId with
  | none => []
  | some room => room.values

/-- canTalk from signaling.ts: the default admission predicate admits
everyone. -/
def canTalk (_userId _roomId : String) : Bool := true

/-- broadcastParticipantUpdate from signaling.ts:
io.to(roomId).emit("participant-update", ...). -/
def broadcastParticipantUpdate {P : Type} (st : ServerState) (roomId : String) : Emit P :=
  (chanMembers st.channels roomId,
   Msg.participantUpdate roomId (getRoomParticipants st roomId))

/-- removeSocketFromRoom from signaling.ts.  Note the order: the
peer-left notice is emitted to the room channel before socket.leave, and
the participant-update broadcast happens after socket.leave and the
session deletion. -/
def removeSocketFromRoom {P : Type} (st : ServerState) (sid : String) :
    ServerState × List (Emit P) :=
  match st.sessions.get? sid with
  | none => (st, [])
  | some session =>
    let rooms1 :=
      match st.rooms.get? session.roomId with
      | none => st.rooms
      | some room =>
        let room1 := room.del sid
        if room1.length = 0 then st.rooms.del session.roomId
        else st.rooms.set session.roomId room1
    let em1 : Emit P := (chanMembers st.channels session.roomId, Msg.peerLeft sid)
    let st1 : ServerState :=
      { rooms := rooms1
        sessions := st.sessions.del sid
        channels := chanLeave st.channels session.roomId sid
        connected := st.connected }
    (st1, [em1, broadcastParticipantUpdate st1 session.roomId])

/-- Model of JavaScript String.prototype.trim (ASCII whitespace
fragment), implemented structurally so that it evaluates inside the
kernel. -/
def jsTrim (s : String) : String :=
  String.mk (((s.toList.dropWhile Char.isWhitespace).reverse.dropWhile
    Char.isWhitespace).reverse)

/-- The join-room handler from signaling.ts.  The payload's roomId is
ignored: the server always uses GLOBAL_ROOM_ID.  The userId is optional
(payload.userId?.trim()); a missing or all-whitespace value is rejected
with INVALID_JOIN.  An existing session is removed first. -/
def handleJoinRoom {P : Type} (st : ServerState) (sid : String)
    (payloadUserId : Option String) : ServerState × List (Emit P) :=
  let roomId := GLOBAL_ROOM_ID
  let userId := payloadUserId.map jsTrim
  match userId with
  | none => (st, [([sid], Msg.voiceError "INVALID_JOIN" "userId is required.")])
  | some u =>
    if u = "" then
      (st, [([sid], Msg.voiceError "INVALID_JOIN" "userId is required.")])
    else if ¬ canTalk u roomId then
      (st, [([sid], Msg.voiceError "FORBIDDEN" "You are not allowed to talk in this room.")])
    else
      let removed := removeSocketFromRoom (P := P) st sid
      let st1 := removed.1
      let room := (st1.rooms.get? roomId).getD []
      let room1 := room.set sid { socketId := sid, userId := u, muted := false }
      let st2 : ServerState :=
        { rooms := st1.rooms.set roomId room1
          sessions := st1.sessions.set sid { roomId := roomId, userId := u, muted := false }
          channels := chanJoin st1.channels roomId sid
          connected := st1.connected }
      let existingParticipants :=
        (getRoomParticipants st2 roomId).filter (fun p => decide (p.socketId ≠ sid))
      let e1 : Emit P := ([sid], Msg.joinedRoom roomId sid existingParticipants)
      let e2 : Emit P :=
        ((chanMembers st2.channels roomId).filter (fun x => decide (x ≠ sid)),
         Msg.participantJoined sid u)
      (st2, removed.2 ++ [e1, e2, broadcastParticipantUpdate st2 roomId])

/-- The set-muted handler from signaling.ts. -/
def handleSetMuted {P : Type} (st : ServerState) (sid : String) (m : Bool) :
    ServerState × List (Emit P) :=
  match st.sessions.get? sid with
  | none => (st, [])
  | some session =>
    match st.rooms.get? session.roomId with
    | none => (st, [])
    | some room =>
      match room.get? sid with
      | none => (st, [])
      | some participant =>
        let p1 := { participant with muted := m }
        let st1 : ServerState :=
          { rooms := st.rooms.set session.roomId (room.set sid p1)
            sessions := st.sessions.set sid { session with muted := m }
            channels := st.channels
            connected := st.connected }
        (st1, [broadcastParticipantUpdate st1 session.roomId])

/-- The offer handler from signaling.ts: no-op without a session,
otherwise io.to(payload.to).emit("offer", {from, userId, sdp}). -/
def handleOffer {P : Type} (st : ServerState) (sid toId : String) (sdp : P) :
    ServerState × List (Emit P) :=
  match st.sessions.get? sid with
  | none => (st, [])
  | some session =>
    (st, [(chanMembers st.channels toId, Msg.offer sid session.userId sdp)])

/-- The answer handler from signaling.ts (textually identical to the
offer handler, with the answer tag). -/
def handleAnswer {P : Type} (st : ServerState) (sid toId : String) (sdp : P) :
    ServerState × List (Emit P) :=
  match st.sessions.get? sid with
  | none => (st, [])
  | some session =>
    (st, [(chanMembers st.channels toId, Msg.answer sid session.userId sdp)])

/-- The ice-candidate handler from signaling.ts (textually identical to
the offer handler, with the ice-candidate tag). -/
def handleIceCandidate {P : Type} (st : ServerState) (sid toId : String) (candidate : P) :
    ServerState × List (Emit P) :=
  match st.sessions.get? sid with
  | none => (st, [])
  | some session =>
    (st, [(chanMembers st.channels toId, Msg.iceCandidate sid session.userId candidate)])

/-- Transport state just before the "disconnect" handler body runs:
socket.io has already removed the socket from every channel and from the
connection pool.  The application maps are untouched at this point. -/
def scrubbed (st : ServerState) (sid : String) : ServerState :=
  { rooms := st.rooms
    sessions := st.sessions
    channels := chanLeaveAll st.channels sid
    connected := st.connected.filter (fun x => decide (x ≠ sid)) }

/-- The disconnect handler: socket.io removes the socket from every
channel and from the connection pool before the handler body
(removeSocketFromRoom) runs. -/
def handleDisconnect {P : Type} (st : ServerState) (sid : String) :
    ServerState × List (Emit P) :=
  removeSocketFromRoom (scrubbed st sid) sid

/-- Inbound transport events.  joinRoom carries the (ignored) roomId
field of JoinRoomPayload and an optional userId. -/
inductive Event (P : Type) where
  | connect (sid : String)
  | joinRoom (sid : String) (userId : Option String) (roomId : String)
  | leaveRoom (sid : String)
  | setMuted (sid : String) (muted : Bool)
  | offer (sid toId : String) (sdp : P)
  | answer (sid toId : String) (sdp : P)
  | iceCandidate (sid toId : String) (candidate : P)
  | disconnect (sid : String)
deriving DecidableEq, Repr

/-- One transport event processed by the registered handlers.  Handlers
exist only for connected sockets, so events naming an unconnected socket
are inert; a fresh connection joins the channel named by its own id. -/
def step {P : Type} (st : ServerState) : Event P → ServerState × List (Emit P)
  | .connect sid =>
      if sid ∈ st.connected then (st, [])
      else ({ rooms := st.rooms, sessions := st.sessions,
              channels := chanJoin st.channels sid sid,
              connected := sid :: st.connected }, [])
  | .joinRoom sid u _r =>
      if sid ∈ st.connected then handleJoinRoom st sid u else (st, [])
  | .leaveRoom sid =>
      if sid ∈ st.connected then removeSocketFromRoom st sid else (st, [])
  | .setMuted sid m =>
      if sid ∈ st.connected then handleSetMuted st sid m else (st, [])
  | .offer sid toId sdp =>
      if sid ∈ st.connected then handleOffer st sid toId sdp else (st, [])
  | .answer sid toId sdp =>
      if sid ∈ st.connected then handleAnswer st sid toId sdp else (st, [])
  | .iceCandidate sid toId c =>
      if sid ∈ st.connected then handleIceCandidate st sid toId c else (st, [])
  | .disconnect sid =>
      if sid ∈ st.connected then handleDisconnect st sid else (st, [])

def initState : ServerState :=
  { rooms := [], sessions := [], channels := [], connected := [] }

def run {P : Type} (st : ServerState) : List (Event P) → ServerState
  | [] => st
  | e :: es => run (step st e).1 es

/-- socket.io connection ids are drawn from an alphabet that can never
produce the room constant; an event trace is well formed when no connect
event claims the room constant as a socket id. -/
def EventOK {P : Type} : Event P → Prop
  | .connect sid => sid ≠ GLOBAL_ROOM_ID
  | _ => True

instance {P : Type} (e : Event P) : Decidable (EventOK e) := by
  cases e <;> simp [EventOK] <;> infer_instance

/-- A socket is a member of a room in the Room Directory. -/
def memberOf (st : ServerState) (roomId sid : String) : Bool :=
  match st.rooms.get? roomId with
  | none => false
  | some room => (room.get? sid).isSome

namespace SMap

theorem get?_set {α : Type} (m : SMap α) (k : String) (v : α) (k2 : String) :
    get? (set m k v) k2 = if k = k2 then some v else get? m k2 := by
  induction m with
  | nil => simp [set, get?]
  | cons e rest ih =>
    obtain ⟨k1, v1⟩ := e
    by_cases h1 : k1 = k
    · by_cases h2 : k = k2 <;> simp [set, get?, h1, h2]
    · by_cases h2 : k1 = k2
      · have h3 : ¬ (k = k2) := fun h => h1 (h2.trans h.symm)
        have h4 : ¬ (k2 = k) := fun h => h3 h.symm
        simp [set, get?, h1, h2, h3, h4]
      · simp [set, get?, h1, h2, ih]

theorem get?_del {α : Type} (m : SMap α) (k : String) (k2 : String) :
    get? (del m k) k2 = if k = k2 then none else get? m k2 := by
  induction m with
  | nil => simp [del, get?]
  | cons e rest ih =>
    obtain ⟨k1, v1⟩ := e
    by_cases h1 : k1 = k
    · simp only [del, if_pos h1, ih]
      by_cases h2 : k = k2
      · simp [h2]
      · have h4 : ¬ (k1 = k2) := fun h => h2 (h1.symm.trans h)
        simp [h2, get?, h4]
    · simp only [del, if_neg h1, get?]
      by_cases h2 : k1 = k2
      · have h3 : ¬ (k = k2) := fun h => h1 (h2.trans h.symm)
        simp [h2, h3]
      · simp [h2, ih]

theorem del_eq_filter {α : Type} (m : SMap α) (k : String) :
    del m k = m.filter (fun e => decide (e.1 ≠ k)) := by
  induction m with
  | nil => simp [del]
  | cons e rest ih =>
    obtain ⟨k1, v1⟩ := e
    by_cases h1 : k1 = k
    · simp [del, h1, List.filter_cons, ih]
    · simp [del, h1, List.filter_cons, ih]

theorem mem_keys_iff_get? {α : Type} (m : SMap α) (k : String) :
    k ∈ keys m ↔ get? m k ≠ none := by
  induction m with
  | nil => simp [keys, get?]
  | cons e rest ih =>
    obtain ⟨k1, v1⟩ := e
    simp only [keys] at ih ⊢
    simp only [List.map_cons, List.mem_cons]
    by_cases h1 : k1 = k
    · simp [get?, h1]
    · have h2 : ¬ (k = k1) := fun h => h1 h.symm
      simp [get?, h1, h2, ih]

theorem get?_mem {α : Type} (m : SMap α) (k : String) (v : α) :
    get? m k = some v → (k, v) ∈ m := by
  induction m with
  | nil => simp [get?]
  | cons e rest ih =>
    obtain ⟨k1, v1⟩ := e
    by_cases h1 : k1 = k
    · simp only [get?, if_pos h1, Option.some.injEq]
      intro h
      rw [← h, ← h1]
      exact List.mem_cons_self _ _
    · simp only [get?, if_neg h1]
      intro h
      exact List.mem_cons_of_mem _ (ih h)

theorem mem_get?_of_nodup {α : Type} (m : SMap α) (k : String) (v : α) :
    (keys m).Nodup → (k, v) ∈ m → get? m k = some v := by
  induction m with
  | nil => intro _ hm; simp at hm
  | cons e rest ih =>
    obtain ⟨k1, v1⟩ := e
    intro hnd hm
    simp only [keys, List.map_cons, List.nodup_cons] at hnd
    rcases List.mem_cons.mp hm with h | h
    · rw [Prod.mk.injEq] at h
      simp [get?, h.1.symm, h.2.symm]
    · have hk1 : ¬ (k1 = k) := by
        intro h1
        apply hnd.1
        rw [h1]
        exact List.mem_map.mpr ⟨(k, v), h, rfl⟩
      simp only [get?, if_neg hk1]
      exact ih hnd.2 h

theorem mem_keys_set {α : Type} (m : SMap α) (k : String) (v : α) (x : String) :
    x ∈ keys (set m k v) ↔ x = k ∨ x ∈ keys m := by
  induction m with
  | nil => simp [set, keys]
  | cons e rest ih =>
    obtain ⟨k1, v1⟩ := e
    by_cases h1 : k1 = k
    · rw [show set ((k1, v1) :: rest) k v = (k, v) :: rest by simp [set, h1]]
      simp only [keys, List.map_cons, List.mem_cons, h1]
      tauto
    · rw [show set ((k1, v1) :: rest) k v = (k1, v1) :: set rest k v by simp [set, h1]]
      have ih2 := ih
      simp only [keys] at ih2
      simp only [keys, List.map_cons, List.mem_cons, ih2]
      tauto

theorem nodup_keys_set {α : Type} (m : SMap α) (k : String) (v : α) :
    (keys m).Nodup → (keys (set m k v)).Nodup := by
  induction m with
  | nil => intro _; simp [set, keys]
  | cons e rest ih =>
    obtain ⟨k1, v1⟩ := e
    intro hnd
    simp only [keys, List.map_cons, List.nodup_cons] at hnd
    by_cases h1 : k1 = k
    · simp only [set, if_pos h1, keys, List.map_cons, List.nodup_cons]
      refine ⟨?_, hnd.2⟩
      rw [← h1]
      exact hnd.1
    · simp only [set, if_neg h1, keys, List.map_cons, List.nodup_cons]
      refine ⟨?_, ih hnd.2⟩
      intro hmem
      rcases (mem_keys_set rest k v k1).mp hmem with h | h
      · exact h1 h
      · exact hnd.1 h

theorem keys_del {α : Type} (m : SMap α) (k : String) :
    keys (del m k) = (keys m).filter (fun x => decide (x ≠ k)) := by
  induction m with
  | nil => simp [del, keys]
  | cons e rest ih =>
    obtain ⟨k1, v1⟩ := e
    simp only [keys] at ih ⊢
    by_cases h1 : k1 = k
    · simp [del, h1, List.filter_cons, ih, ne_eq, decide_not]
    · simp [del, h1, List.filter_cons, ih, ne_eq, decide_not]

theorem nodup_keys_del {α : Type} (m : SMap α) (k : String) :
    (keys m).Nodup → (keys (del m k)).Nodup := by
  intro hnd
  rw [keys_del]
  exact hnd.filter _

theorem values_set_absent {α : Type} (m : SMap α) (k : String) (v : α) :
    get? m k = none → values (set m k v) = values m ++ [v] := by
  induction m with
  | nil => intro _; simp [set, values]
  | cons e rest ih =>
    obtain ⟨k1, v1⟩ := e
    intro h
    by_cases h1 : k1 = k
    · simp [get?, h1] at h
    · simp only [get?, if_neg h1] at h
      have ih2 := ih h
      simp only [values] at ih2
      simp [set, h1, values, ih2]

end SMap

theorem mem_chanMembers (cs : List (String × String)) (ch x : String) :
    x ∈ chanMembers cs ch ↔ (ch, x) ∈ cs := by
  simp only [chanMembers, List.mem_map, List.mem_filter, decide_eq_true_eq]
  constructor
  · rintro ⟨⟨c, s⟩, ⟨hmem, hc⟩, hs⟩
    cases hc; cases hs; exact hmem
  · intro h; exact ⟨(ch, x), ⟨h, rfl⟩, rfl⟩

theorem mem_chanJoin (cs : List (String × String)) (ch s : String)
    (e : String × String) : e ∈ chanJoin cs ch s ↔ e ∈ cs ∨ e = (ch, s) := by
  unfold chanJoin
  by_cases h : (ch, s) ∈ cs
  · simp only [if_pos h]
    constructor
    · exact Or.inl
    · rintro (h1 | rfl)
      · exact h1
      · exact h
  · simp [if_neg h]

theorem mem_chanLeave (cs : List (String × String)) (ch s : String)
    (e : String × String) : e ∈ chanLeave cs ch s ↔ e ∈ cs ∧ e ≠ (ch, s) := by
  simp [chanLeave, List.mem_filter]

theorem mem_chanLeaveAll (cs : List (String × String)) (s : String)
    (e : String × String) : e ∈ chanLeaveAll cs s ↔ e ∈ cs ∧ e.2 ≠ s := by
  simp [chanLeaveAll, List.mem_filter]

theorem nodup_chanJoin (cs : List (String × String)) (ch s : String)
    (hnd : cs.Nodup) : (chanJoin cs ch s).Nodup := by
  unfold chanJoin
  by_cases h : (ch, s) ∈ cs
  · simpa [if_pos h] using hnd
  · simp only [if_neg h]
    rw [List.nodup_append]
    refine ⟨hnd, List.nodup_singleton _, ?_⟩
    intro a ha hb
    rw [List.mem_singleton] at hb
    rw [hb] at ha
    exact h ha

theorem nodup_chanLeave (cs : List (String × String)) (ch s : String)
    (hnd : cs.Nodup) : (chanLeave cs ch s).Nodup := hnd.filter _

theorem nodup_chanLeaveAll (cs : List (String × String)) (s : String)
    (hnd : cs.Nodup) : (chanLeaveAll cs s).Nodup := hnd.filter _

theorem set_ne_nil {α : Type} (m : SMap α) (k : String) (v : α) :
    SMap.set m k v ≠ [] := by
  cases m with
  | nil => simp [SMap.set]
  | cons e rest =>
    obtain ⟨k1, v1⟩ := e
    by_cases h : k1 = k <;> simp [SMap.set, h]

/-- Registry part of the data-model invariant: the Room Directory and
the Session Registry are in sync (each room member has a matching
session naming that room and vice versa, every session names the global
room), member maps have no duplicate keys, and no empty room persists. -/
structure RegInv (st : ServerState) : Prop where
  memNodup : ∀ r room, st.rooms.get? r = some room → (SMap.keys room).Nodup
  roomNonempty : ∀ r room, st.rooms.get? r = some room → room ≠ []
  sessOfMem : ∀ r room k p, st.rooms.get? r = some room → SMap.get? room k = some p →
      p.socketId = k ∧ st.sessions.get? k = some ⟨r, p.userId, p.muted⟩
  memOfSess : ∀ k sess, st.sessions.get? k = some sess → sess.roomId = GLOBAL_ROOM_ID ∧
      ∃ room, st.rooms.get? sess.roomId = some room ∧
        SMap.get? room k = some ⟨k, sess.userId, sess.muted⟩

/-- Full invariant: the registry invariant plus the transport layer in
sync with it: sessions belong to connected sockets, channel membership
is exactly the personal channels of connected sockets plus the room
channel of each session, and the room constant is never a socket id. -/
structure Inv (st : ServerState) extends RegInv st : Prop where
  sessConn : ∀ k sess, st.sessions.get? k = some sess → k ∈ st.connected
  connNotGlobal : GLOBAL_ROOM_ID ∉ st.connected
  chanMem : ∀ ch s, (ch, s) ∈ st.channels ↔
      ((ch = s ∧ s ∈ st.connected) ∨
       (∃ sess, st.sessions.get? s = some sess ∧ sess.roomId = ch))
  chanNodup : st.channels.Nodup
  connNodup : st.connected.Nodup

theorem reginv_init : RegInv initState := by
  constructor
  · intro r room h
    simp [initState, SMap.get?] at h
  · intro r room h
    simp [initState, SMap.get?] at h
  · intro r room k p h1 h2
    simp [initState, SMap.get?] at h1
  · intro k sess h
    simp [initState, SMap.get?] at h

theorem inv_init : Inv initState := by
  refine ⟨reginv_init, ?_, ?_, ?_, ?_, ?_⟩
  · intro k sess h
    simp [initState, SMap.get?] at h
  · simp [initState]
  · intro ch s
    simp [initState, SMap.get?]
  · simp [initState]
  · simp [initState]

theorem rsfr_none {P : Type} (st : ServerState) (sid : String)
    (hs : st.sessions.get? sid = none) :
    removeSocketFromRoom (P := P) st sid = (st, []) := by
  simp [removeSocketFromRoom, hs]

theorem rsfr_sessions {P : Type} (st : ServerState) (sid : String) (sess : SessionData)
    (hs : st.sessions.get? sid = some sess) :
    (removeSocketFromRoom (P := P) st sid).1.sessions = st.sessions.del sid := by
  simp [removeSocketFromRoom, hs]

theorem rsfr_channels {P : Type} (st : ServerState) (sid : String) (sess : SessionData)
    (hs : st.sessions.get? sid = some sess) :
    (removeSocketFromRoom (P := P) st sid).1.channels
      = chanLeave st.channels sess.roomId sid := by
  simp [removeSocketFromRoom, hs]

theorem rsfr_connected {P : Type} (st : ServerState) (sid : String) :
    (removeSocketFromRoom (P := P) st sid).1.connected = st.connected := by
  cases hs : st.sessions.get? sid with
  | none => simp [removeSocketFromRoom, hs]
  | some sess => simp [removeSocketFromRoom, hs]

theorem rsfr_rooms_get {P : Type} (st : ServerState) (sid : String) (sess : SessionData)
    (hs : st.sessions.get? sid = some sess) (r : String) :
    SMap.get? (removeSocketFromRoom (P := P) st sid).1.rooms r =
      if r = sess.roomId then
        match st.rooms.get? sess.roomId with
        | none => none
        | some room =>
            if (SMap.del room sid).length = 0 then none else some (SMap.del room sid)
      else st.rooms.get? r := by
  simp only [removeSocketFromRoom, hs]
  cases hr : st.rooms.get? sess.roomId with
  | none =>
    by_cases h : r = sess.roomId <;> simp [h, hr]
  | some room =>
    by_cases hlen : (SMap.del room sid).length = 0
    · by_cases h : r = sess.roomId
      · simp [hr, hlen, SMap.get?_del, h]
      · have h2 : ¬ (sess.roomId = r) := fun hx => h hx.symm
        simp [hr, hlen, SMap.get?_del, h, h2]
    · by_cases h : r = sess.roomId
      · simp [hr, hlen, SMap.get?_set, h]
      · have h2 : ¬ (sess.roomId = r) := fun hx => h hx.symm
        simp [hr, hlen, SMap.get?_set, h, h2]

theorem rsfr_ems {P : Type} (st : ServerState) (sid : String) (sess : SessionData)
    (hs : st.sessions.get? sid = some sess) :
    (removeSocketFromRoom (P := P) st sid).2 =
      [(chanMembers st.channels sess.roomId, Msg.peerLeft sid),
       (chanMembers (chanLeave st.channels sess.roomId sid) sess.roomId,
        Msg.participantUpdate sess.roomId
          (getRoomParticipants (removeSocketFromRoom (P := P) st sid).1 sess.roomId))] := by
  simp [removeSocketFromRoom, hs, broadcastParticipantUpdate]

theorem reg_rsfr {P : Type} {st : ServerState} (h : RegInv st) (sid : String) :
    RegInv (removeSocketFromRoom (P := P) st sid).1 := by
  cases hs : st.sessions.get? sid with
  | none => rw [rsfr_none st sid hs]; exact h
  | some sess =>
    have hrg := rsfr_rooms_get (P := P) st sid sess hs
    have hsesseq := rsfr_sessions (P := P) st sid sess hs
    constructor
    · intro r room hr
      rw [hrg r] at hr
      by_cases hcase : r = sess.roomId
      · rw [if_pos hcase] at hr
        cases hr0 : st.rooms.get? sess.roomId with
        | none => simp only [hr0] at hr; exact Option.noConfusion hr
        | some room0 =>
          simp only [hr0] at hr
          by_cases hlen : (SMap.del room0 sid).length = 0
          · rw [if_pos hlen] at hr; exact Option.noConfusion hr
          · rw [if_neg hlen] at hr
            injection hr with hr2
            subst hr2
            exact SMap.nodup_keys_del _ _ (h.memNodup _ _ hr0)
      · rw [if_neg hcase] at hr
        exact h.memNodup _ _ hr
    · intro r room hr
      rw [hrg r] at hr
      by_cases hcase : r = sess.roomId
      · rw [if_pos hcase] at hr
        cases hr0 : st.rooms.get? sess.roomId with
        | none => simp only [hr0] at hr; exact Option.noConfusion hr
        | some room0 =>
          simp only [hr0] at hr
          by_cases hlen : (SMap.del room0 sid).length = 0
          · rw [if_pos hlen] at hr; exact Option.noConfusion hr
          · rw [if_neg hlen] at hr
            injection hr with hr2
            subst hr2
            intro hnil
            exact hlen (by simp [hnil])
      · rw [if_neg hcase] at hr
        exact h.roomNonempty _ _ hr
    · intro r room k p hr hk
      rw [hrg r] at hr
      rw [hsesseq, SMap.get?_del]
      by_cases hcase : r = sess.roomId
      · rw [if_pos hcase] at hr
        cases hr0 : st.rooms.get? sess.roomId with
        | none => simp only [hr0] at hr; exact Option.noConfusion hr
        | some room0 =>
          simp only [hr0] at hr
          by_cases hlen : (SMap.del room0 sid).length = 0
          · rw [if_pos hlen] at hr; exact Option.noConfusion hr
          · rw [if_neg hlen] at hr
            injection hr with hr2
            subst hr2
            rw [SMap.get?_del] at hk
            by_cases hks : sid = k
            · rw [if_pos hks] at hk; exact Option.noConfusion hk
            · rw [if_neg hks] at hk
              have hsm := h.sessOfMem _ _ _ _ hr0 hk
              refine ⟨hsm.1, ?_⟩
              rw [if_neg hks, hcase]
              exact hsm.2
      · rw [if_neg hcase] at hr
        have hsm := h.sessOfMem _ _ _ _ hr hk
        have hks : ¬ (sid = k) := by
          intro he
          rw [← he] at hsm
          have hsm2 := hsm.2
          rw [hs] at hsm2
          injection hsm2 with h2
          exact hcase (by rw [h2])
        exact ⟨hsm.1, by rw [if_neg hks]; exact hsm.2⟩
    · intro k s2 hk
      rw [hsesseq, SMap.get?_del] at hk
      by_cases hks : sid = k
      · rw [if_pos hks] at hk; exact Option.noConfusion hk
      · rw [if_neg hks] at hk
        have hm := h.memOfSess _ _ hk
        refine ⟨hm.1, ?_⟩
        obtain ⟨room0, hr0, hk0⟩ := hm.2
        rw [hrg s2.roomId]
        by_cases hcase : s2.roomId = sess.roomId
        · rw [if_pos hcase]
          rw [hcase] at hr0
          simp only [hr0]
          have hkmem : SMap.get? (SMap.del room0 sid) k
              = some ⟨k, s2.userId, s2.muted⟩ := by
            rw [SMap.get?_del, if_neg hks]; exact hk0
          have hlen : ¬ ((SMap.del room0 sid).length = 0) := by
            intro hl
            rw [List.length_eq_zero] at hl
            rw [hl] at hkmem
            simp [SMap.get?] at hkmem
          rw [if_neg hlen]
          exact ⟨_, rfl, hkmem⟩
        · rw [if_neg hcase]
          exact ⟨room0, hr0, hk0⟩

theorem inv_rsfr {P : Type} {st : ServerState} (h : Inv st) (sid : String) :
    Inv (removeSocketFromRoom (P := P) st sid).1 := by
  cases hs : st.sessions.get? sid with
  | none => rw [rsfr_none st sid hs]; exact h
  | some sess =>
    refine ⟨reg_rsfr h.toRegInv sid, ?_, ?_, ?_, ?_, ?_⟩
    · intro k s2 hk
      rw [rsfr_sessions (P := P) st sid sess hs, SMap.get?_del] at hk
      rw [rsfr_connected]
      by_cases hks : sid = k
      · rw [if_pos hks] at hk; exact Option.noConfusion hk
      · rw [if_neg hks] at hk
        exact h.sessConn _ _ hk
    · rw [rsfr_connected]
      exact h.connNotGlobal
    · intro ch s
      rw [rsfr_channels (P := P) st sid sess hs,
          rsfr_sessions (P := P) st sid sess hs, rsfr_connected]
      constructor
      · intro hmem
        rw [mem_chanLeave] at hmem
        obtain ⟨hold, hne⟩ := hmem
        rcases (h.chanMem ch s).mp hold with h1 | ⟨s2, hget, hrid⟩
        · exact Or.inl h1
        · right
          have hssid : ¬ (s = sid) := by
            intro he
            apply hne
            rw [he] at hget
            rw [hs] at hget
            injection hget with h2
            rw [he, ← hrid, h2]
          refine ⟨s2, ?_, hrid⟩
          rw [SMap.get?_del, if_neg (fun he => hssid he.symm)]
          exact hget
      · rintro (⟨hd1, hd2⟩ | ⟨s2, hget, hrid⟩)
        · rw [mem_chanLeave]
          refine ⟨(h.chanMem ch s).mpr (Or.inl ⟨hd1, hd2⟩), ?_⟩
          intro he
          have hch : ch = sess.roomId := congrArg Prod.fst he
          have hssid : s = sid := congrArg Prod.snd he
          apply h.connNotGlobal
          rw [← (h.memOfSess _ _ hs).1, ← hch, hd1, hssid]
          exact h.sessConn _ _ hs
        · rw [SMap.get?_del] at hget
          by_cases hks : sid = s
          · rw [if_pos hks] at hget; exact Option.noConfusion hget
          · rw [if_neg hks] at hget
            rw [mem_chanLeave]
            refine ⟨(h.chanMem ch s).mpr (Or.inr ⟨s2, hget, hrid⟩), ?_⟩
            intro he
            exact hks (congrArg Prod.snd he).symm
    · rw [rsfr_channels (P := P) st sid sess hs]
      exact nodup_chanLeave _ _ _ h.chanNodup
    · rw [rsfr_connected]
      exact h.connNodup

theorem rsfr_sessions_sid {P : Type} (st : ServerState) (sid : String) :
    (removeSocketFromRoom (P := P) st sid).1.sessions.get? sid = none := by
  cases hs : st.sessions.get? sid with
  | none => rw [rsfr_none st sid hs]; exact hs
  | some sess =>
    rw [rsfr_sessions st sid sess hs, SMap.get?_del]
    simp

/-- State immediately after the insert phase of the join-room handler:
the new participant is written into the global room, the new session is
recorded, and the socket joins the room channel. -/
def joinedState (st1 : ServerState) (sid u : String) : ServerState :=
  let room := (st1.rooms.get? GLOBAL_ROOM_ID).getD []
  { rooms := st1.rooms.set GLOBAL_ROOM_ID
      (room.set sid { socketId := sid, userId := u, muted := false })
    sessions := st1.sessions.set sid
      { roomId := GLOBAL_ROOM_ID, userId := u, muted := false }
    channels := chanJoin st1.channels GLOBAL_ROOM_ID sid
    connected := st1.connected }

theorem handleJoin_none {P : Type} (st : ServerState) (sid : String) :
    handleJoinRoom (P := P) st sid none
      = (st, [([sid], Msg.voiceError "INVALID_JOIN" "userId is required.")]) := rfl

theorem handleJoin_blank {P : Type} (st : ServerState) (sid : String) (u : String)
    (hu : jsTrim u = "") :
    handleJoinRoom (P := P) st sid (some u)
      = (st, [([sid], Msg.voiceError "INVALID_JOIN" "userId is required.")]) := by
  simp [handleJoinRoom, hu]

theorem handleJoin_valid {P : Type} (st : ServerState) (sid : String) (u : String)
    (hu : jsTrim u ≠ "") :
    handleJoinRoom (P := P) st sid (some u)
      = (joinedState (removeSocketFromRoom (P := P) st sid).1 sid (jsTrim u),
         (removeSocketFromRoom (P := P) st sid).2 ++
          [([sid], Msg.joinedRoom GLOBAL_ROOM_ID sid
             ((getRoomParticipants
                (joinedState (removeSocketFromRoom (P := P) st sid).1 sid (jsTrim u))
                GLOBAL_ROOM_ID).filter (fun p => decide (p.socketId ≠ sid)))),
           ((chanMembers
              (joinedState (removeSocketFromRoom (P := P) st sid).1 sid (jsTrim u)).channels
              GLOBAL_ROOM_ID).filter (fun x => decide (x ≠ sid)),
            Msg.participantJoined sid (jsTrim u)),
           broadcastParticipantUpdate
             (joinedState (removeSocketFromRoom (P := P) st sid).1 sid (jsTrim u))
             GLOBAL_ROOM_ID]) := by
  simp [handleJoinRoom, hu, canTalk, joinedState]

theorem inv_joinedState {st1 : ServerState} (h1 : Inv st1) (sid u : String)
    (hnone : st1.sessions.get? sid = none) (hconn : sid ∈ st1.connected) :
    Inv (joinedState st1 sid u) := by
  have hsidg : sid ≠ GLOBAL_ROOM_ID := by
    intro he
    exact h1.connNotGlobal (he ▸ hconn)
  refine ⟨⟨?_, ?_, ?_, ?_⟩, ?_, ?_, ?_, ?_, ?_⟩
  · -- memNodup
    intro r room hr
    simp only [joinedState] at hr
    rw [SMap.get?_set] at hr
    by_cases hcase : GLOBAL_ROOM_ID = r
    · rw [if_pos hcase] at hr
      injection hr with hr2
      subst hr2
      cases hg : st1.rooms.get? GLOBAL_ROOM_ID with
      | none => simp only [hg, Option.getD]; exact SMap.nodup_keys_set _ _ _ (by simp [SMap.keys])
      | some room0 => simp only [hg, Option.getD]; exact SMap.nodup_keys_set _ _ _ (h1.memNodup _ _ hg)
    · rw [if_neg hcase] at hr
      exact h1.memNodup _ _ hr
  · -- roomNonempty
    intro r room hr
    simp only [joinedState] at hr
    rw [SMap.get?_set] at hr
    by_cases hcase : GLOBAL_ROOM_ID = r
    · rw [if_pos hcase] at hr
      injection hr with hr2
      subst hr2
      exact set_ne_nil _ _ _
    · rw [if_neg hcase] at hr
      exact h1.roomNonempty _ _ hr
  · -- sessOfMem
    intro r room k p hr hk
    simp only [joinedState] at hr ⊢
    rw [SMap.get?_set] at hr
    rw [SMap.get?_set]
    by_cases hcase : GLOBAL_ROOM_ID = r
    · rw [if_pos hcase] at hr
      injection hr with hr2
      subst hr2
      rw [SMap.get?_set] at hk
      by_cases hks : sid = k
      · rw [if_pos hks] at hk
        injection hk with hk2
        subst hk2
        rw [if_pos hks]
        refine ⟨hks, ?_⟩
        rw [← hcase]
      · rw [if_neg hks] at hk
        rw [if_neg hks]
        cases hg : st1.rooms.get? GLOBAL_ROOM_ID with
        | none => rw [hg] at hk; simp [SMap.get?] at hk
        | some room0 =>
          rw [hg] at hk
          simp only [Option.getD] at hk
          have hsm := h1.sessOfMem _ _ _ _ hg hk
          rw [← hcase]
          exact hsm
    · rw [if_neg hcase] at hr
      have hsm := h1.sessOfMem _ _ _ _ hr hk
      have : r = GLOBAL_ROOM_ID := (h1.memOfSess _ _ hsm.2).1
      exact absurd this.symm hcase
  · -- memOfSess
    intro k s2 hk2
    simp only [joinedState] at hk2 ⊢
    rw [SMap.get?_set] at hk2
    by_cases hks : sid = k
    · rw [if_pos hks] at hk2
      injection hk2 with hk3
      subst hk3
      refine ⟨rfl, ?_⟩
      rw [SMap.get?_set, if_pos rfl]
      refine ⟨_, rfl, ?_⟩
      rw [SMap.get?_set, if_pos hks, hks]
    · rw [if_neg hks] at hk2
      have hm := h1.memOfSess _ _ hk2
      obtain ⟨room0, hg, hk0⟩ := hm.2
      refine ⟨hm.1, ?_⟩
      rw [SMap.get?_set]
      rw [hm.1] at hg ⊢
      rw [if_pos rfl]
      refine ⟨_, rfl, ?_⟩
      rw [SMap.get?_set, if_neg hks, hg]
      simp only [Option.getD]
      exact hk0
  · -- sessConn
    intro k s2 hk2
    simp only [joinedState] at hk2 ⊢
    rw [SMap.get?_set] at hk2
    by_cases hks : sid = k
    · rw [← hks]; exact hconn
    · rw [if_neg hks] at hk2
      exact h1.sessConn _ _ hk2
  · -- connNotGlobal
    simp only [joinedState]
    exact h1.connNotGlobal
  · -- chanMem
    intro ch s
    simp only [joinedState]
    rw [mem_chanJoin, SMap.get?_set]
    constructor
    · rintro (hold | hpair)
      · rcases (h1.chanMem ch s).mp hold with ⟨hch, hcn⟩ | ⟨s2, hg2, hr2⟩
        · exact Or.inl ⟨hch, hcn⟩
        · right
          have hks : ¬ (sid = s) := by
            intro he
            rw [← he] at hg2
            rw [hnone] at hg2
            exact Option.noConfusion hg2
          rw [if_neg hks]
          exact ⟨s2, hg2, hr2⟩
      · rw [Prod.mk.injEq] at hpair
        obtain ⟨h1c, h2c⟩ := hpair
        right
        rw [h2c, if_pos rfl]
        exact ⟨_, rfl, h1c.symm⟩
    · rintro (⟨hch, hcn⟩ | ⟨s2, hg2, hr2⟩)
      · exact Or.inl ((h1.chanMem ch s).mpr (Or.inl ⟨hch, hcn⟩))
      · by_cases hks : sid = s
        · rw [if_pos hks] at hg2
          injection hg2 with hg3
          right
          rw [Prod.mk.injEq]
          refine ⟨?_, hks.symm⟩
          rw [← hr2, ← hg3]
        · rw [if_neg hks] at hg2
          exact Or.inl ((h1.chanMem ch s).mpr (Or.inr ⟨s2, hg2, hr2⟩))
  · -- chanNodup
    simp only [joinedState]
    exact nodup_chanJoin _ _ _ h1.chanNodup
  · -- connNodup
    simp only [joinedState]
    exact h1.connNodup

/-- State after a successful set-muted: the participant record and the
session record of the caller both carry the new mute flag. -/
def mutedState (st : ServerState) (sid : String) (m : Bool) (sess : SessionData)
    (room : SMap Participant) (participant : Participant) : ServerState :=
  { rooms := st.rooms.set sess.roomId (room.set sid { participant with muted := m })
    sessions := st.sessions.set sid { sess with muted := m }
    channels := st.channels
    connected := st.connected }

theorem handleSetMuted_eq {P : Type} (st : ServerState) (sid : String) (m : Bool)
    (sess : SessionData) (room : SMap Participant) (participant : Participant)
    (hs : st.sessions.get? sid = some sess)
    (hr : st.rooms.get? sess.roomId = some room)
    (hp : room.get? sid = some participant) :
    handleSetMuted (P := P) st sid m =
      (mutedState st sid m sess room participant,
       [broadcastParticipantUpdate (mutedState st sid m sess room participant)
          sess.roomId]) := by
  simp [handleSetMuted, hs, hr, hp, mutedState]

theorem handleSetMuted_noSession {P : Type} (st : ServerState) (sid : String) (m : Bool)
    (hs : st.sessions.get? sid = none) :
    handleSetMuted (P := P) st sid m = (st, []) := by
  simp [handleSetMuted, hs]

theorem inv_handleSetMuted {P : Type} {st : ServerState} (h : Inv st)
    (sid : String) (m : Bool) : Inv (handleSetMuted (P := P) st sid m).1 := by
  cases hs : st.sessions.get? sid with
  | none => rw [handleSetMuted_noSession st sid m hs]; exact h
  | some sess =>
    cases hr : st.rooms.get? sess.roomId with
    | none => simp only [handleSetMuted, hs, hr]; exact h
    | some room =>
      cases hp : room.get? sid with
      | none => simp only [handleSetMuted, hs, hr, hp]; exact h
      | some participant =>
        rw [handleSetMuted_eq st sid m sess room participant hs hr hp]
        have hpm := h.sessOfMem _ _ _ _ hr hp
        have hglob : sess.roomId = GLOBAL_ROOM_ID := (h.memOfSess _ _ hs).1
        have hseq : sess = ⟨sess.roomId, participant.userId, participant.muted⟩ := by
          have h2 := hpm.2
          rw [hs] at h2
          injection h2
        have huid : sess.userId = participant.userId := by rw [hseq]
        refine ⟨⟨?_, ?_, ?_, ?_⟩, ?_, ?_, ?_, ?_, ?_⟩
        · intro r room2 hr2
          simp only [mutedState] at hr2
          rw [SMap.get?_set] at hr2
          by_cases hcase : sess.roomId = r
          · rw [if_pos hcase] at hr2
            injection hr2 with hr3
            subst hr3
            exact SMap.nodup_keys_set _ _ _ (h.memNodup _ _ hr)
          · rw [if_neg hcase] at hr2
            exact h.memNodup _ _ hr2
        · intro r room2 hr2
          simp only [mutedState] at hr2
          rw [SMap.get?_set] at hr2
          by_cases hcase : sess.roomId = r
          · rw [if_pos hcase] at hr2
            injection hr2 with hr3
            subst hr3
            exact set_ne_nil _ _ _
          · rw [if_neg hcase] at hr2
            exact h.roomNonempty _ _ hr2
        · intro r room2 k p hr2 hk2
          simp only [mutedState] at hr2 ⊢
          rw [SMap.get?_set] at hr2
          rw [SMap.get?_set]
          by_cases hcase : sess.roomId = r
          · rw [if_pos hcase] at hr2
            injection hr2 with hr3
            subst hr3
            rw [SMap.get?_set] at hk2
            by_cases hks : sid = k
            · rw [if_pos hks] at hk2
              injection hk2 with hk3
              subst hk3
              refine ⟨?_, ?_⟩
              · show participant.socketId = k
                rw [hpm.1]
                exact hks
              · rw [if_pos hks]
                simp [huid, hcase]
            · rw [if_neg hks] at hk2
              have hsm := h.sessOfMem _ _ _ _ hr hk2
              refine ⟨hsm.1, ?_⟩
              rw [if_neg hks, ← hcase]
              exact hsm.2
          · rw [if_neg hcase] at hr2
            have hsm := h.sessOfMem _ _ _ _ hr2 hk2
            have hks : ¬ (sid = k) := by
              intro he
              have h2 := hsm.2
              rw [← he, hs] at h2
              injection h2 with h3
              apply hcase
              rw [h3]
            refine ⟨hsm.1, ?_⟩
            rw [if_neg hks]
            exact hsm.2
        · intro k s2 hk2
          simp only [mutedState] at hk2 ⊢
          rw [SMap.get?_set] at hk2
          by_cases hks : sid = k
          · rw [if_pos hks] at hk2
            injection hk2 with hk3
            subst hk3
            dsimp only
            refine ⟨hglob, ?_⟩
            rw [SMap.get?_set, if_pos rfl]
            refine ⟨_, rfl, ?_⟩
            rw [SMap.get?_set, if_pos hks]
            simp [hpm.1, hks, huid]
          · rw [if_neg hks] at hk2
            have hm := h.memOfSess _ _ hk2
            obtain ⟨room0, hg0, hk0⟩ := hm.2
            refine ⟨hm.1, ?_⟩
            have hsr : s2.roomId = sess.roomId := hm.1.trans hglob.symm
            rw [SMap.get?_set, hsr, if_pos rfl]
            refine ⟨_, rfl, ?_⟩
            rw [SMap.get?_set, if_neg hks]
            rw [hsr] at hg0
            rw [hr] at hg0
            injection hg0 with hg1
            rw [hg1]
            exact hk0
        · intro k s2 hk2
          simp only [mutedState] at hk2 ⊢
          rw [SMap.get?_set] at hk2
          by_cases hks : sid = k
          · rw [← hks]
            exact h.sessConn _ _ hs
          · rw [if_neg hks] at hk2
            exact h.sessConn _ _ hk2
        · simp only [mutedState]
          exact h.connNotGlobal
        · intro ch s
          simp only [mutedState]
          rw [h.chanMem ch s, SMap.get?_set]
          constructor
          · rintro (h1 | ⟨s2, hg2, hr2⟩)
            · exact Or.inl h1
            · right
              by_cases hks : sid = s
              · rw [← hks] at hg2
                rw [hs] at hg2
                injection hg2 with hg3
                refine ⟨_, by rw [if_pos hks], ?_⟩
                dsimp only
                rw [← hr2, hg3]
              · exact ⟨s2, by rw [if_neg hks]; exact hg2, hr2⟩
          · rintro (h1 | ⟨s2, hg2, hr2⟩)
            · exact Or.inl h1
            · right
              by_cases hks : sid = s
              · rw [if_pos hks] at hg2
                injection hg2 with hg3
                refine ⟨sess, ?_, ?_⟩
                · rw [← hks]; exact hs
                · rw [← hr2, ← hg3]
              · rw [if_neg hks] at hg2
                exact ⟨s2, hg2, hr2⟩

        · simp only [mutedState]
          exact h.chanNodup
        · simp only [mutedState]
          exact h.connNodup

theorem inv_handleJoin {P : Type} {st : ServerState} (h : Inv st) (sid : String)
    (u : Option String) (hconn : sid ∈ st.connected) :
    Inv (handleJoinRoom (P := P) st sid u).1 := by
  cases u with
  | none => rw [handleJoin_none]; exact h
  | some s =>
    by_cases hu : jsTrim s = ""
    · rw [handleJoin_blank st sid s hu]; exact h
    · rw [handleJoin_valid st sid s hu]
      refine inv_joinedState (inv_rsfr h sid) sid (jsTrim s) (rsfr_sessions_sid st sid) ?_
      rw [rsfr_connected]
      exact hconn

theorem scrubbed_rooms (st : ServerState) (sid : String) :
    (scrubbed st sid).rooms = st.rooms := rfl

theorem scrubbed_sessions (st : ServerState) (sid : String) :
    (scrubbed st sid).sessions = st.sessions := rfl

theorem mem_scrubbed_channels (st : ServerState) (sid : String) (e : String × String) :
    e ∈ (scrubbed st sid).channels ↔ e ∈ st.channels ∧ e.2 ≠ sid :=
  mem_chanLeaveAll st.channels sid e

theorem mem_scrubbed_connected (st : ServerState) (sid : String) (x : String) :
    x ∈ (scrubbed st sid).connected ↔ x ∈ st.connected ∧ x ≠ sid := by
  simp [scrubbed, List.mem_filter]

theorem reg_scrubbed {st : ServerState} (h : RegInv st) (sid : String) :
    RegInv (scrubbed st sid) :=
  ⟨h.memNodup, h.roomNonempty, h.sessOfMem, h.memOfSess⟩

theorem inv_handleDisconnect {P : Type} {st : ServerState} (h : Inv st) (sid : String) :
    Inv (handleDisconnect (P := P) st sid).1 := by
  rw [handleDisconnect]
  cases hs : st.sessions.get? sid with
  | none =>
    rw [rsfr_none _ sid (by rw [scrubbed_sessions]; exact hs)]
    refine ⟨reg_scrubbed h.toRegInv sid, ?_, ?_, ?_, ?_, ?_⟩
    · intro k s2 hk
      rw [scrubbed_sessions] at hk
      rw [mem_scrubbed_connected]
      refine ⟨h.sessConn _ _ hk, ?_⟩
      intro he
      rw [he, hs] at hk
      exact Option.noConfusion hk
    · intro hmem
      exact h.connNotGlobal ((mem_scrubbed_connected st sid _).mp hmem).1
    · intro ch s
      rw [mem_scrubbed_channels, scrubbed_sessions, mem_scrubbed_connected]
      constructor
      · rintro ⟨hold, hne⟩
        rcases (h.chanMem ch s).mp hold with ⟨hch, hcn⟩ | ⟨s2, hg2, hr2⟩
        · exact Or.inl ⟨hch, hcn, hne⟩
        · exact Or.inr ⟨s2, hg2, hr2⟩
      · rintro (⟨hch, hcn, hne⟩ | ⟨s2, hg2, hr2⟩)
        · exact ⟨(h.chanMem ch s).mpr (Or.inl ⟨hch, hcn⟩), hne⟩
        · refine ⟨(h.chanMem ch s).mpr (Or.inr ⟨s2, hg2, hr2⟩), ?_⟩
          intro he
          have he2 : s = sid := he
          rw [he2, hs] at hg2
          exact Option.noConfusion hg2
    · exact nodup_chanLeaveAll _ _ h.chanNodup
    · exact h.connNodup.filter _
  | some sess =>
    have hs0 : (scrubbed st sid).sessions.get? sid = some sess := by
      rw [scrubbed_sessions]; exact hs
    refine ⟨reg_rsfr (reg_scrubbed h.toRegInv sid) sid, ?_, ?_, ?_, ?_, ?_⟩
    · intro k s2 hk
      rw [rsfr_sessions _ sid sess hs0, scrubbed_sessions, SMap.get?_del] at hk
      rw [rsfr_connected, mem_scrubbed_connected]
      by_cases hks : sid = k
      · rw [if_pos hks] at hk; exact Option.noConfusion hk
      · rw [if_neg hks] at hk
        exact ⟨h.sessConn _ _ hk, fun he => hks he.symm⟩
    · rw [rsfr_connected]
      intro hmem
      exact h.connNotGlobal ((mem_scrubbed_connected st sid _).mp hmem).1
    · intro ch s
      rw [rsfr_channels _ sid sess hs0, rsfr_sessions _ sid sess hs0,
          scrubbed_sessions, rsfr_connected]
      rw [mem_chanLeave, mem_scrubbed_channels, SMap.get?_del]
      constructor
      · rintro ⟨⟨hold, hs2⟩, hne⟩
        rcases (h.chanMem ch s).mp hold with ⟨hch, hcn⟩ | ⟨s2, hg2, hr2⟩
        · exact Or.inl ⟨hch, (mem_scrubbed_connected st sid s).mpr ⟨hcn, hs2⟩⟩
        · right
          refine ⟨s2, ?_, hr2⟩
          rw [if_neg (fun he => hs2 he.symm)]
          exact hg2
      · rintro (⟨hch, hcn⟩ | ⟨s2, hg2, hr2⟩)
        · obtain ⟨hcn2, hne2⟩ := (mem_scrubbed_connected st sid s).mp hcn
          refine ⟨⟨(h.chanMem ch s).mpr (Or.inl ⟨hch, hcn2⟩), hne2⟩, ?_⟩
          intro he
          exact hne2 (congrArg Prod.snd he)
        · by_cases hks : sid = s
          · rw [if_pos hks] at hg2; exact Option.noConfusion hg2
          · rw [if_neg hks] at hg2
            have hne2 : s ≠ sid := fun he => hks he.symm
            refine ⟨⟨(h.chanMem ch s).mpr (Or.inr ⟨s2, hg2, hr2⟩), hne2⟩, ?_⟩
            intro he
            exact hne2 (congrArg Prod.snd he)
    · rw [rsfr_channels _ sid sess hs0]
      exact nodup_chanLeave _ _ _ (nodup_chanLeaveAll _ _ h.chanNodup)
    · rw [rsfr_connected]
      exact h.connNodup.filter _

theorem inv_connect {st : ServerState} (h : Inv st) (sid : String)
    (hc : sid ∉ st.connected) (hg : sid ≠ GLOBAL_ROOM_ID) :
    Inv { rooms := st.rooms, sessions := st.sessions,
          channels := chanJoin st.channels sid sid,
          connected := sid :: st.connected } := by
  refine ⟨⟨h.memNodup, h.roomNonempty, h.sessOfMem, h.memOfSess⟩, ?_, ?_, ?_, ?_, ?_⟩
  · intro k s2 hk
    exact List.mem_cons_of_mem _ (h.sessConn _ _ hk)
  · intro hmem
    rcases List.mem_cons.mp hmem with h1 | h1
    · exact hg h1.symm
    · exact h.connNotGlobal h1
  · intro ch s
    rw [mem_chanJoin]
    constructor
    · rintro (hold | hpair)
      · rcases (h.chanMem ch s).mp hold with ⟨hch, hcn⟩ | hsess
        · exact Or.inl ⟨hch, List.mem_cons_of_mem _ hcn⟩
        · exact Or.inr hsess
      · rw [Prod.mk.injEq] at hpair
        obtain ⟨h1, h2⟩ := hpair
        left
        refine ⟨h1.trans h2.symm, ?_⟩
        rw [h2]
        exact List.mem_cons_self _ _
    · rintro (⟨hch, hcn⟩ | ⟨s2, hg2, hr2⟩)
      · rcases List.mem_cons.mp hcn with h1 | h1
        · right
          rw [Prod.mk.injEq]
          exact ⟨hch.trans h1, h1⟩
        · exact Or.inl ((h.chanMem ch s).mpr (Or.inl ⟨hch, h1⟩))
      · exact Or.inl ((h.chanMem ch s).mpr (Or.inr ⟨s2, hg2, hr2⟩))
  · exact nodup_chanJoin _ _ _ h.chanNodup
  · exact List.nodup_cons.mpr ⟨hc, h.connNodup⟩

theorem handleOffer_state {P : Type} (st : ServerState) (sid toId : String) (p : P) :
    (handleOffer st sid toId p).1 = st := by
  cases hs : st.sessions.get? sid with
  | none => simp [handleOffer, hs]
  | some sess => simp [handleOffer, hs]

theorem handleAnswer_state {P : Type} (st : ServerState) (sid toId : String) (p : P) :
    (handleAnswer st sid toId p).1 = st := by
  cases hs : st.sessions.get? sid with
  | none => simp [handleAnswer, hs]
  | some sess => simp [handleAnswer, hs]

theorem handleIceCandidate_state {P : Type} (st : ServerState) (sid toId : String) (p : P) :
    (handleIceCandidate st sid toId p).1 = st := by
  cases hs : st.sessions.get? sid with
  | none => simp [handleIceCandidate, hs]
  | some sess => simp [handleIceCandidate, hs]

theorem inv_step {P : Type} {st : ServerState} (h : Inv st) (e : Event P)
    (hok : EventOK e) : Inv (step st e).1 := by
  cases e with
  | connect sid =>
    by_cases hc : sid ∈ st.connected
    · simpa [step, hc] using h
    · simp only [step, if_neg hc]
      exact inv_connect h sid hc hok
  | joinRoom sid u r =>
    by_cases hc : sid ∈ st.connected
    · simp only [step, if_pos hc]
      exact inv_handleJoin h sid u hc
    · simpa [step, hc] using h
  | leaveRoom sid =>
    by_cases hc : sid ∈ st.connected
    · simp only [step, if_pos hc]
      exact inv_rsfr h sid
    · simpa [step, hc] using h
  | setMuted sid m =>
    by_cases hc : sid ∈ st.connected
    · simp only [step, if_pos hc]
      exact inv_handleSetMuted h sid m
    · simpa [step, hc] using h
  | offer sid toId p =>
    by_cases hc : sid ∈ st.connected
    · simp only [step, if_pos hc]
      rw [handleOffer_state]
      exact h
    · simpa [step, hc] using h
  | answer sid toId p =>
    by_cases hc : sid ∈ st.connected
    · simp only [step, if_pos hc]
      rw [handleAnswer_state]
      exact h
    · simpa [step, hc] using h
  | iceCandidate sid toId p =>
    by_cases hc : sid ∈ st.connected
    · simp only [step, if_pos hc]
      rw [handleIceCandidate_state]
      exact h
    · simpa [step, hc] using h
  | disconnect sid =>
    by_cases hc : sid ∈ st.connected
    · simp only [step, if_pos hc]
      exact inv_handleDisconnect h sid
    · simpa [step, hc] using h

theorem inv_run {P : Type} (es : List (Event P)) (hok : ∀ e ∈ es, EventOK e) :
    Inv (run initState es) := by
  suffices hgen : ∀ (st : ServerState), Inv st → Inv (run st es) from hgen initState inv_init
  induction es with
  | nil => intro st h; exact h
  | cons e rest ih =>
    intro st h
    rw [run]
    exact ih (fun x hx => hok x (List.mem_cons_of_mem _ hx)) _
      (inv_step h e (hok e (List.mem_cons_self _ _)))

theorem values_del_filter (m : SMap Participant) (k : String)
    (hsock : ∀ e ∈ m, (e.2).socketId = e.1) :
    SMap.values (SMap.del m k)
      = (SMap.values m).filter (fun p => decide (p.socketId ≠ k)) := by
  induction m with
  | nil => simp [SMap.del, SMap.values]
  | cons e rest ih =>
    obtain ⟨k1, v1⟩ := e
    have hv1 : v1.socketId = k1 := hsock (k1, v1) (List.mem_cons_self _ _)
    have ihr := ih (fun x hx => hsock x (List.mem_cons_of_mem _ hx))
    simp only [SMap.values, ne_eq, decide_not] at ihr
    by_cases h1 : k1 = k
    · simp [SMap.del, h1, SMap.values, List.filter_cons, ihr, hv1, ne_eq, decide_not]
    · simp [SMap.del, h1, SMap.values, List.filter_cons, ihr, hv1, ne_eq, decide_not]

theorem values_set_mem (m : SMap Participant) (k : String) (v : Participant) :
    (SMap.keys m).Nodup → (∀ e ∈ m, (e.2).socketId = e.1) →
    SMap.get? m k ≠ none →
    SMap.values (SMap.set m k v)
      = (SMap.values m).map (fun p => if p.socketId = k then v else p) := by
  induction m with
  | nil => intro _ _ hmem; simp [SMap.get?] at hmem
  | cons e rest ih =>
    obtain ⟨k1, v1⟩ := e
    intro hnd hsock hmem
    have hv1 : v1.socketId = k1 := hsock (k1, v1) (List.mem_cons_self _ _)
    simp only [SMap.keys, List.map_cons, List.nodup_cons] at hnd
    by_cases h1 : k1 = k
    · simp only [SMap.set, if_pos h1, SMap.values, List.map_cons]
      rw [hv1, h1, if_pos rfl]
      have hrest : ∀ p ∈ SMap.values rest, (if p.socketId = k then v else p) = p := by
        intro p hp
        simp only [SMap.values, List.mem_map] at hp
        obtain ⟨e2, he2, hpe⟩ := hp
        rw [if_neg]
        rw [← hpe, hsock e2 (List.mem_cons_of_mem _ he2)]
        intro hek
        apply hnd.1
        rw [h1, ← hek]
        exact List.mem_map.mpr ⟨e2, he2, rfl⟩
      have hmaps : List.map (fun p => if p.socketId = k then v else p) (SMap.values rest)
          = SMap.values rest := by
        rw [List.map_congr_left hrest]
        simp
      simp only [SMap.values] at hmaps
      rw [hmaps]
    · simp only [SMap.get?, if_neg h1] at hmem
      simp only [SMap.set, if_neg h1, SMap.values, List.map_cons]
      rw [hv1, if_neg h1]
      have ihr := ih hnd.2 (fun x hx => hsock x (List.mem_cons_of_mem _ hx)) hmem
      simp only [SMap.values] at ihr
      rw [ihr]

theorem room_entries_socketId {st : ServerState} (h : RegInv st) {r : String}
    {room : SMap Participant} (hr : st.rooms.get? r = some room) :
    ∀ e ∈ room, (e.2).socketId = e.1 := by
  intro e he
  obtain ⟨k, v⟩ := e
  have hget := SMap.mem_get?_of_nodup room k v (h.memNodup _ _ hr) he
  exact (h.sessOfMem _ _ _ _ hr hget).1

theorem filter_participants_self {st : ServerState} (h : RegInv st) (sid : String)
    (hnone : st.sessions.get? sid = none) :
    (getRoomParticipants st GLOBAL_ROOM_ID).filter (fun p => decide (p.socketId ≠ sid))
      = getRoomParticipants st GLOBAL_ROOM_ID := by
  cases hr : st.rooms.get? GLOBAL_ROOM_ID with
  | none => simp [getRoomParticipants, hr]
  | some room =>
    simp only [getRoomParticipants, hr]
    rw [List.filter_eq_self]
    intro p hp
    simp only [SMap.values, List.mem_map] at hp
    obtain ⟨e, he, hpe⟩ := hp
    have hsock := room_entries_socketId h hr e he
    obtain ⟨k, v⟩ := e
    have hget := SMap.mem_get?_of_nodup room k v (h.memNodup _ _ hr) he
    have hsess := (h.sessOfMem _ _ _ _ hr hget).2
    simp only [decide_eq_true_eq]
    intro hps
    rw [← hpe] at hps
    rw [hsock] at hps
    have hks : k = sid := hps
    rw [hks, hnone] at hsess
    exact Option.noConfusion hsess

theorem participants_after_remove {P : Type} {st : ServerState} (h : RegInv st) (sid : String) :
    getRoomParticipants (removeSocketFromRoom (P := P) st sid).1 GLOBAL_ROOM_ID
      = (getRoomParticipants st GLOBAL_ROOM_ID).filter (fun p => decide (p.socketId ≠ sid)) := by
  cases hs : st.sessions.get? sid with
  | none =>
    rw [rsfr_none st sid hs, filter_participants_self h sid hs]
  | some sess =>
    have hglob : sess.roomId = GLOBAL_ROOM_ID := (h.memOfSess _ _ hs).1
    obtain ⟨room, hr, hk⟩ := (h.memOfSess _ _ hs).2
    rw [hglob] at hr
    have hsock := room_entries_socketId h hr
    have hrg := rsfr_rooms_get (P := P) st sid sess hs GLOBAL_ROOM_ID
    rw [hglob, if_pos rfl] at hrg
    simp only [hr] at hrg
    by_cases hlen : (SMap.del room sid).length = 0
    · rw [if_pos hlen] at hrg
      simp only [getRoomParticipants, hrg, hr]
      rw [← values_del_filter room sid hsock]
      rw [List.length_eq_zero] at hlen
      rw [hlen]
      simp [SMap.values]
    · rw [if_neg hlen] at hrg
      simp only [getRoomParticipants, hrg, hr]
      exact values_del_filter room sid hsock

theorem chanMembers_global {st : ServerState} (h : Inv st) (x : String) :
    x ∈ chanMembers st.channels GLOBAL_ROOM_ID
      ↔ ∃ s2, st.sessions.get? x = some s2 := by
  rw [mem_chanMembers, h.chanMem]
  constructor
  · rintro (⟨hch, hcn⟩ | ⟨s2, hg2, hrid⟩)
    · exact absurd (show GLOBAL_ROOM_ID ∈ st.connected by rw [hch]; exact hcn)
        h.connNotGlobal
    · exact ⟨s2, hg2⟩
  · rintro ⟨s2, hg2⟩
    exact Or.inr ⟨s2, hg2, (h.memOfSess _ _ hg2).1⟩

theorem chanMembers_personal {st : ServerState} (h : Inv st) (toId : String)
    (htog : toId ≠ GLOBAL_ROOM_ID) (x : String) :
    x ∈ chanMembers st.channels toId ↔ (x = toId ∧ toId ∈ st.connected) := by
  rw [mem_chanMembers, h.chanMem]
  constructor
  · rintro (⟨hch, hcn⟩ | ⟨s2, hg2, hrid⟩)
    · exact ⟨hch.symm, by rw [hch]; exact hcn⟩
    · exact absurd (((h.memOfSess _ _ hg2).1.symm.trans hrid).symm) htog
  · rintro ⟨hx, hcn⟩
    exact Or.inl ⟨hx.symm, by rw [hx]; exact hcn⟩

/-- Character class [a-z0-9_-] used by the room-name normalizer of
src/unnamed/part_000. -/
def isRoomIdChar (c : Char) : Bool :=
  (decide ('a' ≤ c) && decide (c ≤ 'z')) ||
  (decide ('0' ≤ c) && decide (c ≤ '9')) || c == '_' || c == '-'

/-- toRoomHostId from src/unnamed/part_000: lower-case, trim, REPLACE
every character outside [a-z0-9_-] with a hyphen (the /g regex replace),
truncate to 36 characters, and fall back to "global" when the
normalized string is empty.  Char.toLower models the ASCII fragment of
String.prototype.toLowerCase, which is all the room names here use. -/
def toRoomHostId (roomId : String) : String :=
  let normalized := String.mk
    (((jsTrim (String.mk (roomId.toList.map Char.toLower))).toList.map
      (fun c => if isRoomIdChar c then c else '-')).take 36)
  "room-" ++ (if normalized = "" then "global" else normalized)

/-- Modelled from the spec words of C9 ("stripping characters outside
[a-z0-9_-]"): identical to toRoomHostId except that characters outside
the class are REMOVED rather than replaced with a hyphen. -/
def toRoomHostIdSpecStrip (roomId : String) : String :=
  let normalized := String.mk
    (((jsTrim (String.mk (roomId.toList.map Char.toLower))).toList.filter
      isRoomIdChar).take 36)
  "room-" ++ (if normalized = "" then "global" else normalized)

/-- Modelled from the amended spec words: the per-character
normalization that replaces each character outside [a-z0-9_-] with a
hyphen, after lower-casing and trimming, with the "global" fallback. -/
def specReplaceNormalize (roomId : String) : String :=
  let replaced := String.mk
    ((jsTrim (String.mk (roomId.toList.map Char.toLower))).toList.map
      (fun c => if isRoomIdChar c then c else '-'))
  if replaced = "" then "global" else replaced

theorem getRoomParticipants_joined {st1 : ServerState} (h1 : Inv st1) (sid u : String)
    (hnone : st1.sessions.get? sid = none) :
    getRoomParticipants (joinedState st1 sid u) GLOBAL_ROOM_ID
      = getRoomParticipants st1 GLOBAL_ROOM_ID
        ++ [{ socketId := sid, userId := u, muted := false }] := by
  simp only [getRoomParticipants, joinedState]
  rw [SMap.get?_set, if_pos rfl]
  cases hr : st1.rooms.get? GLOBAL_ROOM_ID with
  | none =>
    simp only [hr, Option.getD]
    rw [SMap.values_set_absent _ _ _ (by simp [SMap.get?])]
    simp [SMap.values]
  | some room =>
    simp only [hr, Option.getD]
    rw [SMap.values_set_absent]
    cases hg : SMap.get? room sid with
    | none => rfl
    | some p =>
      have hsess := (h1.sessOfMem _ _ _ _ hr hg).2
      rw [hnone] at hsess
      exact Option.noConfusion hsess

theorem memberOf_iff (st : ServerState) (r s : String) :
    memberOf st r s = true
      ↔ ∃ room p, st.rooms.get? r = some room ∧ SMap.get? room s = some p := by
  cases hr : st.rooms.get? r with
  | none => simp [memberOf, hr]
  | some room =>
    simp only [memberOf, hr, Option.isSome_iff_exists]
    constructor
    · rintro ⟨p, hp⟩
      exact ⟨room, p, rfl, hp⟩
    · rintro ⟨room2, p, hr2, hp⟩
      injection hr2 with h2
      exact ⟨p, by rw [h2]; exact hp⟩

/-- C1: after every well-formed event trace (joins, leaves, mute
updates, disconnects, relays), the Session Registry and the Room
Directory are in sync: a connectionId is a member of at most one room,
and it is a member of room r exactly when it has a Session entry whose
roomId is r.  The join handler guarantees this even for duplicate joins
because it runs removeSocketFromRoom before inserting. -/
theorem C1_registry_room_sync {P : Type} (es : List (Event P))
    (hok : ∀ e ∈ es, EventOK e) :
    (∀ r1 r2 s, memberOf (run initState es) r1 s = true →
        memberOf (run initState es) r2 s = true → r1 = r2) ∧
    (∀ r s, memberOf (run initState es) r s = true ↔
        ∃ sess, (run initState es).sessions.get? s = some sess ∧ sess.roomId = r) := by
  have h := inv_run es hok
  constructor
  · intro r1 r2 s h1 h2
    obtain ⟨room1, p1, hr1, hp1⟩ := (memberOf_iff _ _ _).mp h1
    obtain ⟨room2, p2, hr2, hp2⟩ := (memberOf_iff _ _ _).mp h2
    have e1 := (h.sessOfMem _ _ _ _ hr1 hp1).2
    have e2 := (h.sessOfMem _ _ _ _ hr2 hp2).2
    rw [e1] at e2
    injection e2 with e3
    exact congrArg SessionData.roomId e3
  · intro r s
    constructor
    · intro h1
      obtain ⟨room, p, hr, hp⟩ := (memberOf_iff _ _ _).mp h1
      exact ⟨_, (h.sessOfMem _ _ _ _ hr hp).2, rfl⟩
    · rintro ⟨sess, hg, hrid⟩
      obtain ⟨room, hr, hk⟩ := (h.memOfSess _ _ hg).2
      rw [hrid] at hr
      exact (memberOf_iff _ _ _).mpr ⟨room, _, hr, hk⟩

theorem C1_registry_room_sync_witness :
    (∀ e ∈ ([Event.connect "a", Event.joinRoom "a" (some "alice") "r1"] :
        List (Event Nat)), EventOK e) ∧
    (memberOf (run initState
        ([Event.connect "a", Event.joinRoom "a" (some "alice") "r1"] :
          List (Event Nat))) GLOBAL_ROOM_ID "a" = true ↔
      ∃ sess, (run initState
          ([Event.connect "a", Event.joinRoom "a" (some "alice") "r1"] :
            List (Event Nat))).sessions.get? "a" = some sess ∧
        sess.roomId = GLOBAL_ROOM_ID) := by
  refine ⟨by decide, ?_⟩
  exact (C1_registry_room_sync _ (by decide)).2 GLOBAL_ROOM_ID "a"

/-- C2: the removal routine is idempotent: running the leave path (or
the disconnect path) a second time, after a first removal has already
run, leaves the state unchanged and emits nothing, so the combined
effect of the two invocations is exactly one removal. -/
theorem C2_removal_idempotent {P : Type} (st : ServerState) (sid : String) :
    step (step st (Event.leaveRoom (P := P) sid)).1 (Event.leaveRoom (P := P) sid)
        = ((step st (Event.leaveRoom (P := P) sid)).1, []) ∧
    step (step st (Event.disconnect (P := P) sid)).1 (Event.disconnect (P := P) sid)
        = ((step st (Event.disconnect (P := P) sid)).1, []) := by
  constructor
  · by_cases hc : sid ∈ st.connected
    · simp only [step, if_pos hc]
      have hc1 : sid ∈ (removeSocketFromRoom (P := P) st sid).1.connected := by
        rw [rsfr_connected]
        exact hc
      rw [if_pos hc1]
      exact rsfr_none _ sid (rsfr_sessions_sid st sid)
    · simp [step, hc]
  · by_cases hc : sid ∈ st.connected
    · simp only [step, if_pos hc]
      have hc1 : sid ∉ (handleDisconnect (P := P) st sid).1.connected := by
        rw [handleDisconnect, rsfr_connected]
        simp [scrubbed, List.mem_filter]
      rw [if_neg hc1]
    · simp [step, hc]

/-- C3: a join request whose userId is missing, or empty after
trimming, is rejected with a single INVALID_JOIN error sent to the
requester only, and neither the Session Registry, the Room Directory,
the channels nor the connection pool changes, and nothing is broadcast. -/
theorem C3_invalid_join_rejected {P : Type} (st : ServerState) (sid : String)
    (u : Option String) (r : String) (hconn : sid ∈ st.connected)
    (hu : u = none ∨ ∃ s, u = some s ∧ jsTrim s = "") :
    step st (Event.joinRoom (P := P) sid u r)
      = (st, [([sid], Msg.voiceError "INVALID_JOIN" "userId is required.")]) := by
  simp only [step, if_pos hconn]
  rcases hu with rfl | ⟨s, rfl, hs⟩
  · exact handleJoin_none st sid
  · exact handleJoin_blank st sid s hs

theorem C3_invalid_join_rejected_witness :
    ("a" ∈ (run initState ([Event.connect "a"] : List (Event Nat))).connected ∧
     jsTrim "  " = "") ∧
    step (run initState ([Event.connect "a"] : List (Event Nat)))
        (Event.joinRoom (P := Nat) "a" (some "  ") "whatever")
      = (run initState ([Event.connect "a"] : List (Event Nat)),
         [(["a"], Msg.voiceError "INVALID_JOIN" "userId is required.")]) :=
  ⟨⟨by decide, by decide⟩,
   C3_invalid_join_rejected _ _ _ _ (by decide) (Or.inr ⟨"  ", rfl, by decide⟩)⟩

/-- C4: removing the last member of a room deletes the room entry
itself, and consequently, after every well-formed event trace, no room
present in the Room Directory is empty. -/
theorem C4_no_empty_rooms {P : Type} :
    (∀ (st : ServerState) (sid : String) (sess : SessionData) (room : SMap Participant),
        st.sessions.get? sid = some sess → st.rooms.get? sess.roomId = some room →
        (SMap.del room sid).length = 0 →
        ((removeSocketFromRoom (P := P) st sid).1.rooms).get? sess.roomId = none) ∧
    (∀ (es : List (Event P)), (∀ e ∈ es, EventOK e) →
        ∀ r room, (run initState es).rooms.get? r = some room → room ≠ []) := by
  constructor
  · intro st sid sess room hs hr hlen
    rw [rsfr_rooms_get st sid sess hs, if_pos rfl]
    simp [hr, hlen]
  · intro es hok r room hr
    exact (inv_run es hok).roomNonempty r room hr

theorem C4_no_empty_rooms_witness :
    ((run initState ([Event.connect "a", Event.connect "b",
        Event.joinRoom "a" (some "alice") "r"] : List (Event Nat))).sessions.get? "a"
      = some { roomId := GLOBAL_ROOM_ID, userId := "alice", muted := false }) ∧
    ((removeSocketFromRoom (P := Nat) (run initState
        ([Event.connect "a", Event.connect "b",
          Event.joinRoom "a" (some "alice") "r"] : List (Event Nat)))
        "a").1.rooms).get? GLOBAL_ROOM_ID = none := by
  refine ⟨by decide, ?_⟩
  refine (C4_no_empty_rooms (P := Nat)).1 _ "a"
    { roomId := GLOBAL_ROOM_ID, userId := "alice", muted := false }
    [("a", { socketId := "a", userId := "alice", muted := false })]
    (by decide) (by decide) (by decide)

/-- C10: a successful join always writes muted = false into both the
new Participant record and the new Session, even when the connection
previously had a session with muted = true: the prior session is
removed first and its mute state is never carried over. -/
theorem C10_rejoin_resets_mute {P : Type} (st : ServerState) (sid u0 r0 u r : String)
    (hsess : st.sessions.get? sid = some { roomId := r0, userId := u0, muted := true })
    (hconn : sid ∈ st.connected) (hu : jsTrim u ≠ "") :
    (step st (Event.joinRoom (P := P) sid (some u) r)).1.sessions.get? sid
        = some { roomId := GLOBAL_ROOM_ID, userId := jsTrim u, muted := false } ∧
    ∃ room, ((step st (Event.joinRoom (P := P) sid (some u) r)).1.rooms).get?
          GLOBAL_ROOM_ID = some room ∧
      room.get? sid = some { socketId := sid, userId := jsTrim u, muted := false } := by
  simp only [step, if_pos hconn]
  rw [handleJoin_valid st sid u hu]
  constructor
  · simp only [joinedState]
    rw [SMap.get?_set, if_pos rfl]
  · refine ⟨((((removeSocketFromRoom (P := P) st sid).1.rooms.get?
        GLOBAL_ROOM_ID).getD []).set sid
        { socketId := sid, userId := jsTrim u, muted := false }), ?_, ?_⟩
    · simp only [joinedState]
      rw [SMap.get?_set, if_pos rfl]
    · rw [SMap.get?_set, if_pos rfl]

theorem C10_rejoin_resets_mute_witness :
    ((run initState ([Event.connect "a", Event.joinRoom "a" (some "alice") "r",
        Event.setMuted "a" true] : List (Event Nat))).sessions.get? "a"
      = some { roomId := GLOBAL_ROOM_ID, userId := "alice", muted := true }) ∧
    (step (run initState ([Event.connect "a", Event.joinRoom "a" (some "alice") "r",
        Event.setMuted "a" true] : List (Event Nat)))
        (Event.joinRoom (P := Nat) "a" (some "alice") "r")).1.sessions.get? "a"
      = some { roomId := GLOBAL_ROOM_ID, userId := jsTrim "alice", muted := false } := by
  refine ⟨by decide, ?_⟩
  exact (C10_rejoin_resets_mute _ "a" "alice" GLOBAL_ROOM_ID "alice" "r"
    (by decide) (by decide) (by decide)).1

/-- C9 counterexample: the client normalizer does not STRIP characters
outside [a-z0-9_-]; it replaces them with a hyphen.  On the room name
"a b" the code produces "room-a-b" while the spec's stripping
normalizer would produce "room-ab". -/
theorem C9_strip_counterexample :
    toRoomHostId "a b" = "room-a-b" ∧ toRoomHostIdSpecStrip "a b" = "room-ab" ∧
    toRoomHostId "a b" ≠ toRoomHostIdSpecStrip "a b" :=
  ⟨by decide, by decide, by decide⟩

/-- C9 (amended): room normalization lower-cases and trims the supplied
room name, REPLACES each character outside [a-z0-9_-] with a hyphen,
truncates to a bounded length (36), and falls back to the default name
"global" when the normalized result is empty; the normalized part is
always nonempty, at most 36 characters, and drawn from the class.  In
the single-global-room server deployment the room identity is a
constant: the join handler's behavior does not depend on the
caller-supplied roomId. -/
theorem C9_room_normalization_amended {P : Type} (s : String)
    (st : ServerState) (sid : String) (u : Option String) (r1 r2 : String) :
    (∃ n, toRoomHostId s = "room-" ++ n ∧ n ≠ "" ∧ n.length ≤ 36 ∧
        ∀ c ∈ n.toList, isRoomIdChar c = true) ∧
    ((jsTrim (String.mk (s.toList.map Char.toLower))).length ≤ 36 →
        toRoomHostId s = "room-" ++ specReplaceNormalize s) ∧
    step st (Event.joinRoom (P := P) sid u r1)
      = step st (Event.joinRoom (P := P) sid u r2) := by
  refine ⟨?_, ?_, rfl⟩
  · by_cases hn : String.mk
        (((jsTrim (String.mk (s.toList.map Char.toLower))).toList.map
          (fun c => if isRoomIdChar c then c else '-')).take 36) = ""
    · refine ⟨"global", ?_, by decide, by decide, by decide⟩
      simp only [toRoomHostId]
      rw [if_pos hn]
    · refine ⟨_, ?_, hn, ?_, ?_⟩
      · simp only [toRoomHostId]
        rw [if_neg hn]
      · show (List.take 36 _).length ≤ 36
        rw [List.length_take]
        exact min_le_left _ _
      · intro c hc
        have hc2 : c ∈ (jsTrim (String.mk (s.toList.map Char.toLower))).toList.map
            (fun c => if isRoomIdChar c then c else '-') :=
          List.mem_of_mem_take hc
        obtain ⟨c0, _, hc0⟩ := List.mem_map.mp hc2
        rw [← hc0]
        by_cases hcr : isRoomIdChar c0 = true
        · rw [if_pos hcr]; exact hcr
        · rw [if_neg hcr]; decide
  · intro hlen
    have h36 : ((jsTrim (String.mk (s.toList.map Char.toLower))).toList.map
        (fun c => if isRoomIdChar c then c else '-')).length ≤ 36 := by
      rw [List.length_map]
      exact hlen
    simp only [toRoomHostId, specReplaceNormalize]
    rw [List.take_of_length_le h36]

theorem C9_room_normalization_amended_witness :
    ((jsTrim (String.mk (("Room 7!").toList.map Char.toLower))).length ≤ 36) ∧
    toRoomHostId "Room 7!" = "room-" ++ specReplaceNormalize "Room 7!" ∧
    step initState (Event.joinRoom (P := Nat) "a" (some "u") "x")
      = step initState (Event.joinRoom (P := Nat) "a" (some "u") "y") := by
  have h := C9_room_normalization_amended (P := Nat) "Room 7!" initState "a" (some "u") "x" "y"
  exact ⟨by decide, h.2.1 (by decide), h.2.2⟩

/-- C6: for each of the three relay handlers (offer, answer,
ice-candidate): with no sender session the call is a complete no-op;
with a session the opaque payload is forwarded unchanged to the channel
named by the target connection id, tagged with from = sender and
userId = the sender's session userId, with no same-room validation, and
the three handlers route identically.  The target channel contains
exactly the target connection, so any third connection receives
nothing. -/
theorem C6_relay_routing {P : Type} (es : List (Event P)) (hok : ∀ e ∈ es, EventOK e)
    (sid toId : String) (p : P) (sess : SessionData)
    (hs : (run initState es).sessions.get? sid = some sess)
    (hto : toId ∈ (run initState es).connected) (htog : toId ≠ GLOBAL_ROOM_ID) :
    (step (run initState es) (Event.offer sid toId p)
        = (run initState es,
           [(chanMembers (run initState es).channels toId,
             Msg.offer sid sess.userId p)]) ∧
     step (run initState es) (Event.answer sid toId p)
        = (run initState es,
           [(chanMembers (run initState es).channels toId,
             Msg.answer sid sess.userId p)]) ∧
     step (run initState es) (Event.iceCandidate sid toId p)
        = (run initState es,
           [(chanMembers (run initState es).channels toId,
             Msg.iceCandidate sid sess.userId p)])) ∧
    (∀ x, x ∈ chanMembers (run initState es).channels toId ↔ x = toId) ∧
    (∀ sid2, (run initState es).sessions.get? sid2 = none →
        step (run initState es) (Event.offer sid2 toId p) = (run initState es, []) ∧
        step (run initState es) (Event.answer sid2 toId p) = (run initState es, []) ∧
        step (run initState es) (Event.iceCandidate sid2 toId p)
          = (run initState es, [])) := by
  have h := inv_run es hok
  have hconn : sid ∈ (run initState es).connected := h.sessConn _ _ hs
  refine ⟨⟨?_, ?_, ?_⟩, ?_, ?_⟩
  · simp only [step, if_pos hconn, handleOffer, hs]
  · simp only [step, if_pos hconn, handleAnswer, hs]
  · simp only [step, if_pos hconn, handleIceCandidate, hs]
  · intro x
    rw [chanMembers_personal h toId htog x]
    exact ⟨fun hx => hx.1, fun hx => ⟨hx, hto⟩⟩
  · intro sid2 hs2
    by_cases hc2 : sid2 ∈ (run initState es).connected
    · exact ⟨by simp [step, hc2, handleOffer, hs2],
             by simp [step, hc2, handleAnswer, hs2],
             by simp [step, hc2, handleIceCandidate, hs2]⟩
    · exact ⟨by simp [step, hc2], by simp [step, hc2], by simp [step, hc2]⟩

theorem C6_relay_routing_witness :
    step (run initState ([Event.connect "a", Event.connect "b", Event.connect "c",
        Event.joinRoom "a" (some "alice") "r", Event.joinRoom "b" (some "bob") "r"] :
          List (Event Nat)))
        (Event.offer "a" "b" (7 : Nat))
      = (run initState ([Event.connect "a", Event.connect "b", Event.connect "c",
          Event.joinRoom "a" (some "alice") "r", Event.joinRoom "b" (some "bob") "r"] :
            List (Event Nat)),
         [(chanMembers (run initState ([Event.connect "a", Event.connect "b",
             Event.connect "c", Event.joinRoom "a" (some "alice") "r",
             Event.joinRoom "b" (some "bob") "r"] : List (Event Nat))).channels "b",
           Msg.offer "a" "alice" 7)]) ∧
    ("c" ∈ chanMembers (run initState ([Event.connect "a", Event.connect "b",
        Event.connect "c", Event.joinRoom "a" (some "alice") "r",
        Event.joinRoom "b" (some "bob") "r"] : List (Event Nat))).channels "b"
      ↔ "c" = "b") := by
  have h := C6_relay_routing (P := Nat)
    [Event.connect "a", Event.connect "b", Event.connect "c",
     Event.joinRoom "a" (some "alice") "r", Event.joinRoom "b" (some "bob") "r"]
    (by decide) "a" "b" 7
    { roomId := GLOBAL_ROOM_ID, userId := "alice", muted := false }
    (by decide) (by decide) (by decide)
  exact ⟨h.1.1, h.2.1 "c"⟩

/-- C8: set-muted with no session is a complete no-op; with a session
it updates exactly the caller's mute flag in both the Participant
record and the Session, leaves every other participant record, every
other session, the channels and the connection pool unchanged, and
broadcasts the full room snapshot (reflecting the caller's new flag and
nobody else changed) to all current room members. -/
theorem C8_setMuted_frame {P : Type} (es : List (Event P)) (hok : ∀ e ∈ es, EventOK e)
    (sid : String) (m : Bool) (sess : SessionData)
    (hs : (run initState es).sessions.get? sid = some sess) :
    (∃ room participant,
      (run initState es).rooms.get? sess.roomId = some room ∧
      SMap.get? room sid = some participant ∧
      step (run initState es) (Event.setMuted (P := P) sid m)
        = (mutedState (run initState es) sid m sess room participant,
           [(chanMembers (run initState es).channels sess.roomId,
             Msg.participantUpdate sess.roomId
               (getRoomParticipants
                 (mutedState (run initState es) sid m sess room participant)
                 sess.roomId))]) ∧
      (mutedState (run initState es) sid m sess room participant).sessions.get? sid
        = some { sess with muted := m } ∧
      (∀ k, k ≠ sid →
        (mutedState (run initState es) sid m sess room participant).sessions.get? k
          = (run initState es).sessions.get? k) ∧
      ((mutedState (run initState es) sid m sess room participant).rooms.get?
          sess.roomId = some (room.set sid { participant with muted := m })) ∧
      (∀ k, k ≠ sid →
        SMap.get? (room.set sid { participant with muted := m }) k
          = SMap.get? room k) ∧
      (mutedState (run initState es) sid m sess room participant).channels
        = (run initState es).channels ∧
      (mutedState (run initState es) sid m sess room participant).connected
        = (run initState es).connected ∧
      getRoomParticipants (mutedState (run initState es) sid m sess room participant)
          sess.roomId
        = (getRoomParticipants (run initState es) sess.roomId).map
            (fun q => if q.socketId = sid then { q with muted := m } else q) ∧
      (∀ x, x ∈ chanMembers (run initState es).channels sess.roomId ↔
          ∃ s2, (run initState es).sessions.get? x = some s2)) ∧
    (∀ sid2, (run initState es).sessions.get? sid2 = none →
        step (run initState es) (Event.setMuted (P := P) sid2 m)
          = (run initState es, [])) := by
  have h := inv_run es hok
  have hconn := h.sessConn _ _ hs
  have hglob := (h.memOfSess _ _ hs).1
  obtain ⟨room, hr, hk⟩ := (h.memOfSess _ _ hs).2
  have hnd := h.memNodup _ _ hr
  have hsock := room_entries_socketId h.toRegInv hr
  refine ⟨⟨room, _, hr, hk, ?_, ?_, ?_, ?_, ?_, rfl, rfl, ?_, ?_⟩, ?_⟩
  · simp only [step, if_pos hconn]
    exact handleSetMuted_eq _ _ _ _ _ _ hs hr hk
  · simp only [mutedState]
    rw [SMap.get?_set, if_pos rfl]
  · intro k hkne
    simp only [mutedState]
    rw [SMap.get?_set, if_neg (fun he => hkne he.symm)]
  · simp only [mutedState]
    rw [SMap.get?_set, if_pos rfl]
  · intro k hkne
    rw [SMap.get?_set, if_neg (fun he => hkne he.symm)]
  · simp only [mutedState, getRoomParticipants]
    rw [SMap.get?_set, if_pos rfl, hr]
    dsimp only
    rw [values_set_mem room sid _ hnd hsock (by rw [hk]; exact fun hx => Option.noConfusion hx)]
    apply List.map_congr_left
    intro q hq
    by_cases hqs : q.socketId = sid
    · rw [if_pos hqs, if_pos hqs]
      obtain ⟨e, he, hqe⟩ := List.mem_map.mp hq
      obtain ⟨ek, ev⟩ := e
      have hek : ev.socketId = ek := hsock (ek, ev) he
      have hq2 : SMap.get? room ek = some ev := SMap.mem_get?_of_nodup room ek ev hnd he
      rw [← hqe] at hqs
      rw [hek] at hqs
      rw [hqs] at hq2
      rw [hk] at hq2
      injection hq2 with hq3
      have hev : ((ek, ev).2 : Participant)
          = { socketId := sid, userId := sess.userId, muted := sess.muted } := hq3.symm
      rw [← hqe, hev]
    · rw [if_neg hqs, if_neg hqs]
  · intro x
    rw [hglob]
    exact chanMembers_global h x
  · intro sid2 hs2
    by_cases hc2 : sid2 ∈ (run initState es).connected
    · simp only [step, if_pos hc2]
      exact handleSetMuted_noSession _ _ _ hs2
    · simp [step, hc2]

theorem C8_setMuted_frame_witness :
    ((run initState ([Event.connect "a", Event.connect "b",
        Event.joinRoom "a" (some "alice") "r", Event.joinRoom "b" (some "bob") "r"] :
          List (Event Nat))).sessions.get? "a"
      = some { roomId := GLOBAL_ROOM_ID, userId := "alice", muted := false }) ∧
    (step (run initState ([Event.connect "a", Event.connect "b",
        Event.joinRoom "a" (some "alice") "r", Event.joinRoom "b" (some "bob") "r"] :
          List (Event Nat))) (Event.setMuted (P := Nat) "a" true)).1.sessions.get? "a"
      = some { roomId := GLOBAL_ROOM_ID, userId := "alice", muted := true } := by
  refine ⟨by decide, ?_⟩
  obtain ⟨⟨room, participant, hr, hk, hstep, hupd, hrest⟩, hnoop⟩ :=
    C8_setMuted_frame (P := Nat)
      [Event.connect "a", Event.connect "b",
       Event.joinRoom "a" (some "alice") "r", Event.joinRoom "b" (some "bob") "r"]
      (by decide) "a" true
      { roomId := GLOBAL_ROOM_ID, userId := "alice", muted := false } (by decide)
  rw [hstep]
  exact hupd

/-- C7 counterexample: on a graceful leave the peer-left notice is
emitted to the room channel BEFORE socket.leave, so the departing
connection itself ("a") is among its recipients, contradicting the
claim that the notice is delivered to the remaining members only. -/
theorem C7_leaver_receives_notice_counterexample :
    (step (run initState ([Event.connect "a", Event.connect "b",
        Event.joinRoom "a" (some "alice") "r", Event.joinRoom "b" (some "bob") "r"] :
          List (Event Nat))) (Event.leaveRoom (P := Nat) "a")).2
      = [(["a", "b"], Msg.peerLeft "a"),
         (["b"], Msg.participantUpdate GLOBAL_ROOM_ID
            [{ socketId := "b", userId := "bob", muted := false }])] ∧
    "a" ∈ (["a", "b"] : List String) :=
  ⟨by decide, by decide⟩

/-- C7 (amended): on removal of a joined connection the peer-departed
notice naming it is emitted to the room channel before the connection
leaves that channel: on graceful leave its recipients are all current
members including the departing connection itself; on abrupt
disconnect the transport has already removed the departing socket from
the channel, so exactly the remaining members receive it.  In both
cases it is followed by a participant-update broadcast of the updated
snapshot delivered to exactly the remaining membership (a no-op over
zero recipients when the room became empty). -/
theorem C7_departure_notices {P : Type} (es : List (Event P)) (hok : ∀ e ∈ es, EventOK e)
    (sid : String) (sess : SessionData)
    (hs : (run initState es).sessions.get? sid = some sess) :
    (∃ r1 r2,
      (step (run initState es) (Event.leaveRoom (P := P) sid)).2
        = [(r1, Msg.peerLeft sid),
           (r2, Msg.participantUpdate GLOBAL_ROOM_ID
             ((getRoomParticipants (run initState es) GLOBAL_ROOM_ID).filter
               (fun p => decide (p.socketId ≠ sid))))] ∧
      (∀ x, x ∈ r1 ↔ ∃ s2, (run initState es).sessions.get? x = some s2) ∧
      sid ∈ r1 ∧
      (∀ x, x ∈ r2 ↔ (x ≠ sid ∧ ∃ s2, (run initState es).sessions.get? x = some s2))) ∧
    (∃ r1 r2,
      (step (run initState es) (Event.disconnect (P := P) sid)).2
        = [(r1, Msg.peerLeft sid),
           (r2, Msg.participantUpdate GLOBAL_ROOM_ID
             ((getRoomParticipants (run initState es) GLOBAL_ROOM_ID).filter
               (fun p => decide (p.socketId ≠ sid))))] ∧
      (∀ x, x ∈ r1 ↔ (x ≠ sid ∧ ∃ s2, (run initState es).sessions.get? x = some s2)) ∧
      (∀ x, x ∈ r2 ↔ (x ≠ sid ∧ ∃ s2, (run initState es).sessions.get? x = some s2))) := by
  have h := inv_run es hok
  have hconn := h.sessConn _ _ hs
  have hglob := (h.memOfSess _ _ hs).1
  constructor
  · refine ⟨chanMembers (run initState es).channels GLOBAL_ROOM_ID,
      chanMembers (chanLeave (run initState es).channels GLOBAL_ROOM_ID sid)
        GLOBAL_ROOM_ID, ?_, ?_, ?_, ?_⟩
    · simp only [step, if_pos hconn]
      rw [rsfr_ems _ sid sess hs, hglob,
          participants_after_remove h.toRegInv sid]
    · intro x
      exact chanMembers_global h x
    · exact (chanMembers_global h sid).mpr ⟨sess, hs⟩
    · intro x
      rw [mem_chanMembers, mem_chanLeave]
      constructor
      · rintro ⟨hmem, hne⟩
        refine ⟨?_, (chanMembers_global h x).mp ((mem_chanMembers _ _ _).mpr hmem)⟩
        intro he
        exact hne (by rw [he])
      · rintro ⟨hne, hsx⟩
        refine ⟨(mem_chanMembers _ _ _).mp ((chanMembers_global h x).mpr hsx), ?_⟩
        intro he
        exact hne (congrArg Prod.snd he)
  · have hs0 : (scrubbed (run initState es) sid).sessions.get? sid = some sess := hs
    refine ⟨chanMembers (scrubbed (run initState es) sid).channels GLOBAL_ROOM_ID,
      chanMembers (chanLeave (scrubbed (run initState es) sid).channels
        GLOBAL_ROOM_ID sid) GLOBAL_ROOM_ID, ?_, ?_, ?_⟩
    · simp only [step, if_pos hconn, handleDisconnect]
      rw [rsfr_ems _ sid sess hs0, hglob,
          participants_after_remove (reg_scrubbed h.toRegInv sid) sid]
      exact rfl
    · intro x
      rw [mem_chanMembers, mem_scrubbed_channels]
      constructor
      · rintro ⟨hmem, hne⟩
        exact ⟨hne, (chanMembers_global h x).mp ((mem_chanMembers _ _ _).mpr hmem)⟩
      · rintro ⟨hne, hsx⟩
        exact ⟨(mem_chanMembers _ _ _).mp ((chanMembers_global h x).mpr hsx), hne⟩
    · intro x
      rw [mem_chanMembers, mem_chanLeave, mem_scrubbed_channels]
      constructor
      · rintro ⟨⟨hmem, hne⟩, hne2⟩
        exact ⟨hne, (chanMembers_global h x).mp ((mem_chanMembers _ _ _).mpr hmem)⟩
      · rintro ⟨hne, hsx⟩
        refine ⟨⟨(mem_chanMembers _ _ _).mp ((chanMembers_global h x).mpr hsx), hne⟩, ?_⟩
        intro he
        exact hne (congrArg Prod.snd he)

theorem C7_departure_notices_witness :
    ((run initState ([Event.connect "a", Event.connect "b",
        Event.joinRoom "a" (some "alice") "r", Event.joinRoom "b" (some "bob") "r"] :
          List (Event Nat))).sessions.get? "a"
      = some { roomId := GLOBAL_ROOM_ID, userId := "alice", muted := false }) ∧
    (∃ r1 r2,
      (step (run initState ([Event.connect "a", Event.connect "b",
          Event.joinRoom "a" (some "alice") "r", Event.joinRoom "b" (some "bob") "r"] :
            List (Event Nat))) (Event.disconnect (P := Nat) "a")).2
        = [(r1, Msg.peerLeft "a"),
           (r2, Msg.participantUpdate GLOBAL_ROOM_ID
             ((getRoomParticipants (run initState ([Event.connect "a", Event.connect "b",
                 Event.joinRoom "a" (some "alice") "r",
                 Event.joinRoom "b" (some "bob") "r"] : List (Event Nat)))
               GLOBAL_ROOM_ID).filter (fun p => decide (p.socketId ≠ "a"))))] ∧
      (∀ x, x ∈ r1 ↔ (x ≠ "a" ∧ ∃ s2, (run initState ([Event.connect "a",
          Event.connect "b", Event.joinRoom "a" (some "alice") "r",
          Event.joinRoom "b" (some "bob") "r"] :
            List (Event Nat))).sessions.get? x = some s2)) ∧
      (∀ x, x ∈ r2 ↔ (x ≠ "a" ∧ ∃ s2, (run initState ([Event.connect "a",
          Event.connect "b", Event.joinRoom "a" (some "alice") "r",
          Event.joinRoom "b" (some "bob") "r"] :
            List (Event Nat))).sessions.get? x = some s2))) := by
  refine ⟨by decide, ?_⟩
  exact (C7_departure_notices (P := Nat)
    [Event.connect "a", Event.connect "b",
     Event.joinRoom "a" (some "alice") "r", Event.joinRoom "b" (some "bob") "r"]
    (by decide) "a"
    { roomId := GLOBAL_ROOM_ID, userId := "alice", muted := false } (by decide)).2

/-- C5: a successful join emits, in order and after any removal
emissions for a stale prior session: (1) a private joined
acknowledgment to the requester whose participant list is the pre-join
snapshot of the other members (excluding the joiner); (2) a
participant-arrived notice carrying the joiner's connectionId and
userId to exactly the existing members (not the joiner); (3) a
participant-update broadcast of the full updated snapshot (including
the new member, appended last) to the entire room.  For a fresh join
the removal emissions are empty and the pre-join snapshot is the whole
room, so the first member receives joined with an empty list. -/
theorem C5_join_message_sequence {P : Type} (es : List (Event P))
    (hok : ∀ e ∈ es, EventOK e) (sid u r : String)
    (hconn : sid ∈ (run initState es).connected) (hu : jsTrim u ≠ "") :
    ∃ recips2 recips3,
      step (run initState es) (Event.joinRoom (P := P) sid (some u) r)
        = (joinedState (removeSocketFromRoom (P := P) (run initState es) sid).1
             sid (jsTrim u),
           (removeSocketFromRoom (P := P) (run initState es) sid).2 ++
            [([sid], Msg.joinedRoom GLOBAL_ROOM_ID sid
               ((getRoomParticipants (run initState es) GLOBAL_ROOM_ID).filter
                 (fun p => decide (p.socketId ≠ sid)))),
             (recips2, Msg.participantJoined sid (jsTrim u)),
             (recips3, Msg.participantUpdate GLOBAL_ROOM_ID
               (((getRoomParticipants (run initState es) GLOBAL_ROOM_ID).filter
                  (fun p => decide (p.socketId ≠ sid)))
                 ++ [{ socketId := sid, userId := jsTrim u, muted := false }]))]) ∧
      (∀ x, x ∈ recips2 ↔
          (x ≠ sid ∧ ∃ s2, (run initState es).sessions.get? x = some s2)) ∧
      (∀ x, x ∈ recips3 ↔
          (x = sid ∨ ∃ s2, (run initState es).sessions.get? x = some s2)) ∧
      ((run initState es).sessions.get? sid = none →
        (removeSocketFromRoom (P := P) (run initState es) sid).2 = [] ∧
        (getRoomParticipants (run initState es) GLOBAL_ROOM_ID).filter
            (fun p => decide (p.socketId ≠ sid))
          = getRoomParticipants (run initState es) GLOBAL_ROOM_ID) := by
  have h := inv_run es hok
  have h1 : Inv (removeSocketFromRoom (P := P) (run initState es) sid).1 :=
    inv_rsfr h sid
  have hnone1 := rsfr_sessions_sid (P := P) (run initState es) sid
  have hconn1 : sid ∈ (removeSocketFromRoom (P := P) (run initState es) sid).1.connected := by
    rw [rsfr_connected]
    exact hconn
  have h2 : Inv (joinedState (removeSocketFromRoom (P := P) (run initState es) sid).1
      sid (jsTrim u)) := inv_joinedState h1 sid (jsTrim u) hnone1 hconn1
  have hjoined := getRoomParticipants_joined h1 sid (jsTrim u) hnone1
  have hremoved := participants_after_remove (P := P) h.toRegInv sid
  have hsx : ∀ x, x ≠ sid →
      (joinedState (removeSocketFromRoom (P := P) (run initState es) sid).1
        sid (jsTrim u)).sessions.get? x
        = (run initState es).sessions.get? x := by
    intro x hx
    simp only [joinedState]
    rw [SMap.get?_set, if_neg (fun he => hx he.symm)]
    cases hz : (run initState es).sessions.get? sid with
    | none => rw [rsfr_none _ _ hz]
    | some s0 =>
      rw [rsfr_sessions _ _ s0 hz, SMap.get?_del,
          if_neg (fun he => hx he.symm)]
  have hsnap : getRoomParticipants
      (joinedState (removeSocketFromRoom (P := P) (run initState es) sid).1
        sid (jsTrim u)) GLOBAL_ROOM_ID
      = ((getRoomParticipants (run initState es) GLOBAL_ROOM_ID).filter
          (fun p => decide (p.socketId ≠ sid)))
        ++ [{ socketId := sid, userId := jsTrim u, muted := false }] := by
    rw [hjoined, hremoved]
  have hpre : (getRoomParticipants
      (joinedState (removeSocketFromRoom (P := P) (run initState es) sid).1
        sid (jsTrim u)) GLOBAL_ROOM_ID).filter (fun p => decide (p.socketId ≠ sid))
      = (getRoomParticipants (run initState es) GLOBAL_ROOM_ID).filter
          (fun p => decide (p.socketId ≠ sid)) := by
    rw [hsnap, List.filter_append]
    have hlast : ([{ socketId := sid, userId := jsTrim u, muted := false }] :
        List Participant).filter (fun p => decide (p.socketId ≠ sid)) = [] := by
      simp
    rw [hlast, List.append_nil]
    exact List.filter_eq_self.mpr (fun a ha => (List.mem_filter.mp ha).2)
  refine ⟨(chanMembers (joinedState (removeSocketFromRoom (P := P)
      (run initState es) sid).1 sid (jsTrim u)).channels
        GLOBAL_ROOM_ID).filter (fun x => decide (x ≠ sid)),
    chanMembers (joinedState (removeSocketFromRoom (P := P)
      (run initState es) sid).1 sid (jsTrim u)).channels GLOBAL_ROOM_ID,
    ?_, ?_, ?_, ?_⟩
  · simp only [step, if_pos hconn]
    rw [handleJoin_valid _ sid u hu]
    rw [hpre]
    rw [broadcastParticipantUpdate, hsnap]
  · intro x
    rw [List.mem_filter]
    constructor
    · rintro ⟨hmem, hxne⟩
      simp only [decide_eq_true_eq] at hxne
      have hsess2 := (chanMembers_global h2 x).mp hmem
      obtain ⟨s2, hg2⟩ := hsess2
      rw [hsx x hxne] at hg2
      exact ⟨hxne, s2, hg2⟩
    · rintro ⟨hxne, s2, hg2⟩
      refine ⟨(chanMembers_global h2 x).mpr ⟨s2, ?_⟩, by simp [hxne]⟩
      rw [hsx x hxne]
      exact hg2
  · intro x
    rw [chanMembers_global h2 x]
    by_cases hx : x = sid
    · constructor
      · intro _
        exact Or.inl hx
      · intro _
        refine ⟨{ roomId := GLOBAL_ROOM_ID, userId := jsTrim u, muted := false }, ?_⟩
        rw [hx]
        simp only [joinedState]
        rw [SMap.get?_set, if_pos rfl]
    · rw [hsx x hx]
      constructor
      · exact fun he => Or.inr he
      · rintro (he | he)
        · exact absurd he hx
        · exact he
  · intro hz
    refine ⟨?_, filter_participants_self h.toRegInv sid hz⟩
    rw [rsfr_none _ _ hz]

theorem C5_join_message_sequence_witness :
    ("b" ∈ (run initState ([Event.connect "a", Event.connect "b",
        Event.joinRoom "a" (some "alice") "r"] : List (Event Nat))).connected ∧
     jsTrim "bob" ≠ "" ∧
     (run initState ([Event.connect "a", Event.connect "b",
        Event.joinRoom "a" (some "alice") "r"] : List (Event Nat))).sessions.get? "b"
       = none) ∧
    (∃ recips2 recips3,
      step (run initState ([Event.connect "a", Event.connect "b",
          Event.joinRoom "a" (some "alice") "r"] : List (Event Nat)))
          (Event.joinRoom (P := Nat) "b" (some "bob") "r")
        = (joinedState (removeSocketFromRoom (P := Nat)
             (run initState ([Event.connect "a", Event.connect "b",
               Event.joinRoom "a" (some "alice") "r"] : List (Event Nat))) "b").1
             "b" (jsTrim "bob"),
           (removeSocketFromRoom (P := Nat)
             (run initState ([Event.connect "a", Event.connect "b",
               Event.joinRoom "a" (some "alice") "r"] : List (Event Nat))) "b").2 ++
            [(["b"], Msg.joinedRoom GLOBAL_ROOM_ID "b"
               ((getRoomParticipants (run initState ([Event.connect "a",
                  Event.connect "b", Event.joinRoom "a" (some "alice") "r"] :
                    List (Event Nat))) GLOBAL_ROOM_ID).filter
                 (fun p => decide (p.socketId ≠ "b")))),
             (recips2, Msg.participantJoined "b" (jsTrim "bob")),
             (recips3, Msg.participantUpdate GLOBAL_ROOM_ID
               (((getRoomParticipants (run initState ([Event.connect "a",
                   Event.connect "b", Event.joinRoom "a" (some "alice") "r"] :
                     List (Event Nat))) GLOBAL_ROOM_ID).filter
                  (fun p => decide (p.socketId ≠ "b")))
                 ++ [{ socketId := "b", userId := jsTrim "bob", muted := false }]))]) ∧
      (∀ x, x ∈ recips2 ↔
          (x ≠ "b" ∧ ∃ s2, (run initState ([Event.connect "a", Event.connect "b",
            Event.joinRoom "a" (some "alice") "r"] :
              List (Event Nat))).sessions.get? x = some s2)) ∧
      (∀ x, x ∈ recips3 ↔
          (x = "b" ∨ ∃ s2, (run initState ([Event.connect "a", Event.connect "b",
            Event.joinRoom "a" (some "alice") "r"] :
              List (Event Nat))).sessions.get? x = some s2)) ∧
      ((run initState ([Event.connect "a", Event.connect "b",
          Event.joinRoom "a" (some "alice") "r"] :
            List (Event Nat))).sessions.get? "b" = none →
        (removeSocketFromRoom (P := Nat)
          (run initState ([Event.connect "a", Event.connect "b",
            Event.joinRoom "a" (some "alice") "r"] : List (Event Nat))) "b").2 = [] ∧
        (getRoomParticipants (run initState ([Event.connect "a", Event.connect "b",
            Event.joinRoom "a" (some "alice") "r"] : List (Event Nat)))
            GLOBAL_ROOM_ID).filter (fun p => decide (p.socketId ≠ "b"))
          = getRoomParticipants (run initState ([Event.connect "a", Event.connect "b",
              Event.joinRoom "a" (some "alice") "r"] : List (Event Nat)))
              GLOBAL_ROOM_ID)) := by
  refine ⟨⟨by decide, by decide, by decide⟩, ?_⟩
  exact C5_join_message_sequence (P := Nat)
    [Event.connect "a", Event.connect "b", Event.joinRoom "a" (some "alice") "r"]
    (by decide) "b" "bob" "r" (by decide) (by decide)

end ConnectSite
